import Mathlib

/-! # tvpn: wire-message codec, per-peer negotiation state machine, orchestrator

A shallow embedding of `message.go`, `state.go` and the loop of `tvpn.go`.

Text is `List Char` (a Go string holding valid UTF-8).  Go `int` values are `Int`.
A Go `map[string]string` is an association list read with `List.lookup`; the nil
map and the empty map are both `[]`, and `m[k]` of an absent key is the empty
string.  A Go slice is a `List` (nil slice and empty slice are both `[]`).  A
pointer `*big.Int` is `Option Nat`, nil being `none`.  A handler returns
`Option`: `none` is a run-time panic.
-/

namespace tvpn

/-! ## The fragment of Go `regexp` used by `message.go`

The seven patterns of `message.go` use literals, character classes, `.`, greedy
`*`, `+`, `{1,3}`, `{3}` over a class or a group, and named capture groups.  All
seven are anchored with `^` and `$` (no flags: `^` is start of text, `$` is end
of text and `.` is any character but a newline). -/

/-- Captured groups of a match: group name and matched text, latest first. -/
abbrev Caps := List (String × List Char)

/-- Regular expressions of the fragment: `chr p` is a one-character class, `lit`
a literal string, `opt r` the greedy `r?`, `star p` the greedy `[p]*`, and
`group n r` the named group `(?P<n>r)`. -/
inductive RE where
  | chr : (Char → Bool) → RE
  | lit : List Char → RE
  | seq : RE → RE → RE
  | opt : RE → RE
  | star : (Char → Bool) → RE
  | group : String → RE → RE

/-- Strip a literal prefix, `none` when the text does not start with it. -/
def stripLit : List Char → List Char → Option (List Char)
  | [], s => some s
  | _ :: _, [] => none
  | a :: l, c :: s => if a = c then stripLit l s else none

/-- All ways for the greedy `[p]*` to match a prefix of `s`, longest first; each
entry is the text left over. -/
def starRun (p : Char → Bool) : List Char → List (List Char)
  | [] => [[]]
  | c :: t => if p c then starRun p t ++ [c :: t] else [c :: t]

/-- Backtracking matcher anchored at the start of `s`: every way `r` can match
a prefix of `s`, in the preference order of Go (leftmost-first, greedy), each
with the captures made and the text left over. -/
def run : RE → Caps → List Char → List (Caps × List Char)
  | .chr p, c, s =>
    match s with
    | [] => []
    | x :: t => if p x then [(c, t)] else []
  | .lit l, c, s =>
    match stripLit l s with
    | some t => [(c, t)]
    | none => []
  | .seq a b, c, s => (run a c s).flatMap (fun r => run b r.1 r.2)
  | .opt a, c, s => run a c s ++ [(c, s)]
  | .star p, c, s => (starRun p s).map (fun t => (c, t))
  | .group n a, c, s =>
    (run a c s).map (fun r => ((n, s.take (s.length - r.2.length)) :: r.1, r.2))

/-- Match of `^r$` on the whole text: the captures of the preferred match. -/
def matchRE (r : RE) (s : List Char) : Option Caps :=
  ((run r [] s).find? (fun x => x.2.isEmpty)).map (fun x => x.1)

/-- Go `Regexp.MatchString` for an anchored pattern `^r$`. -/
def MatchString (r : RE) (s : List Char) : Bool := (matchRE r s).isSome

/-- Go `Regexp.ReplaceAllString(s, "${name}")` for an anchored pattern `^r$`: the
single match covers the whole text, which is replaced by the text of the group
(empty for a group that did not take part); without a match the text is
returned unchanged. -/
def ReplaceAllString (r : RE) (s : List Char) (name : String) : List Char :=
  match matchRE r s with
  | some c => (c.lookup name).getD []
  | none => s

/-- Character class `[0-9]`. -/
def isDigit (c : Char) : Bool := decide ('0' ≤ c ∧ c ≤ '9')

/-- Character class `[0-3]`. -/
def isDigit03 (c : Char) : Bool := decide ('0' ≤ c ∧ c ≤ '3')

/-- Character class `[A-Za-z0-9+/=]`. -/
def isB64 (c : Char) : Bool :=
  decide (('A' ≤ c ∧ c ≤ 'Z') ∨ ('a' ≤ c ∧ c ≤ 'z') ∨ ('0' ≤ c ∧ c ≤ '9')
    ∨ c = '+' ∨ c = '/' ∨ c = '=')

/-- The class `.` without the `s` flag: any character except newline. -/
def isDot (c : Char) : Bool := decide (c ≠ '\n')

/-- Pattern `[p]+`. -/
def RE.plus (p : Char → Bool) : RE := .seq (.chr p) (.star p)

/-- Pattern `[0-9]{1,3}`, as `regexp/syntax` simplifies it: `d(d(d)?)?`. -/
def digits13 : RE :=
  .seq (.chr isDigit) (.opt (.seq (.chr isDigit) (.opt (.chr isDigit))))

/-- Pattern `[0-9]{1,3}(?:\.[0-9]{1,3}){3}`; the `{3}` is three copies. -/
def dottedQuad : RE :=
  .seq digits13 (.seq (.seq (.lit ['.']) digits13)
    (.seq (.seq (.lit ['.']) digits13) (.seq (.lit ['.']) digits13)))

/-- Pattern `^INIT$`. -/
def initRE : RE := .lit "INIT".toList

/-- Pattern `^ACCEPT$`. -/
def acceptRE : RE := .lit "ACCEPT".toList

/-- Pattern `^DENY (?P<reason>.*)$`. -/
def denyRE : RE := .seq (.lit "DENY ".toList) (.group "reason" (.star isDot))

/-- Pattern `^DHPUB (?P<i>[0-3]) (?P<x>[A-Za-z0-9+/=]+) (?P<y>[A-Za-z0-9+/=]+)$`. -/
def dhpubRE : RE :=
  .seq (.lit "DHPUB ".toList) (.seq (.group "i" (.chr isDigit03))
    (.seq (.lit [' ']) (.seq (.group "x" (RE.plus isB64))
      (.seq (.lit [' ']) (.group "y" (RE.plus isB64))))))

/-- Pattern `^TUNNIP (?P<ip>[0-9]{1,3}(?:\.[0-9]{1,3}){3})$`. -/
def tunnipRE : RE := .seq (.lit "TUNNIP ".toList) (.group "ip" dottedQuad)

/-- Pattern `^CONNINFO (?P<ip>[0-9]{1,3}(?:\.[0-9]{1,3}){3}) (?P<port>[0-9]+)$`. -/
def conninfoRE : RE :=
  .seq (.lit "CONNINFO ".toList) (.seq (.group "ip" dottedQuad)
    (.seq (.lit [' ']) (.group "port" (RE.plus isDigit))))

/-- Pattern `^RESET (?P<reason>.*)$`. -/
def resetRE : RE := .seq (.lit "RESET ".toList) (.group "reason" (.star isDot))

/-! ## `message.go` -/

/-- Go `map[string]string`. -/
abbrev Data := List (String × List Char)

/-- Go `m[k]`: the value stored under `k`, the empty string when absent. -/
def Data.get (d : Data) (k : String) : List Char := (d.lookup k).getD []

/-- Go `m[k] = v`. -/
def Data.set (d : Data) (k : String) (v : List Char) : Data :=
  (k, v) :: d.filter (fun e => e.1 != k)

/-- The `Message` struct; `Typ` is the Go field `Type`. -/
structure Message where
  To : String := ""
  From : String := ""
  Typ : Int
  Data : tvpn.Data := []
deriving DecidableEq, Repr

/-- Message type constant `Init`. -/
def Init : Int := 0
/-- Message type constant `Join`. -/
def Join : Int := 1
/-- Message type constant `Quit`. -/
def Quit : Int := 2
/-- Message type constant `Accept`. -/
def Accept : Int := 3
/-- Message type constant `Deny`. -/
def Deny : Int := 4
/-- Message type constant `Dhpub`. -/
def Dhpub : Int := 5
/-- Message type constant `Tunnip`. -/
def Tunnip : Int := 6
/-- Message type constant `Conninfo`. -/
def Conninfo : Int := 7
/-- Message type constant `Reset`. -/
def Reset : Int := 8

/-- The error value of `ParseMessage`, carrying its text. -/
structure messageError where
  message : List Char
deriving DecidableEq, Repr

/-- `ParseMessage`: the `switch` tries the patterns in source order (Init, Accept,
Deny, Reset, Dhpub, Tunnip, Conninfo); `data` starts as the empty map. -/
def ParseMessage (message : List Char) : Except messageError Message :=
  let data : Data := []
  if MatchString initRE message then
    .ok { Typ := Init, Data := data }
  else if MatchString acceptRE message then
    .ok { Typ := Accept, Data := data }
  else if MatchString denyRE message then
    let data := data.set "reason" (ReplaceAllString denyRE message "reason")
    .ok { Typ := Deny, Data := data }
  else if MatchString resetRE message then
    let data := data.set "reason" (ReplaceAllString resetRE message "reason")
    .ok { Typ := Reset, Data := data }
  else if MatchString dhpubRE message then
    let data := data.set "x" (ReplaceAllString dhpubRE message "x")
    let data := data.set "y" (ReplaceAllString dhpubRE message "y")
    let data := data.set "i" (ReplaceAllString dhpubRE message "i")
    .ok { Typ := Dhpub, Data := data }
  else if MatchString tunnipRE message then
    let data := data.set "ip" (ReplaceAllString tunnipRE message "ip")
    .ok { Typ := Tunnip, Data := data }
  else if MatchString conninfoRE message then
    let data := data.set "ip" (ReplaceAllString conninfoRE message "ip")
    let data := data.set "port" (ReplaceAllString conninfoRE message "port")
    .ok { Typ := Conninfo, Data := data }
  else
    .error ⟨"Failed to parse message: ".toList ++ message⟩

/-- `Message.String`. -/
def Message.String (m : Message) : List Char :=
  if m.Typ = Init then "INIT".toList
  else if m.Typ = Deny then "DENY ".toList ++ m.Data.get "reason"
  else if m.Typ = Accept then "ACCEPT".toList
  else if m.Typ = Dhpub then
    "DHPUB ".toList ++ m.Data.get "i" ++ " ".toList ++ m.Data.get "x" ++ " ".toList
      ++ m.Data.get "y"
  else if m.Typ = Tunnip then "TUNNIP ".toList ++ m.Data.get "ip"
  else if m.Typ = Conninfo then
    "CONNINFO ".toList ++ m.Data.get "ip" ++ " ".toList ++ m.Data.get "port"
  else if m.Typ = Reset then "RESET ".toList ++ m.Data.get "reason"
  else []

/-- Declarative reading of the fragment: `Sem r c u c'` says that `r` matches
exactly the text `u`, turning the captures `c` into `c'`. -/
def Sem : RE → Caps → List Char → Caps → Prop
  | .chr p, c, u, c' => c' = c ∧ ∃ x, u = [x] ∧ p x = true
  | .lit l, c, u, c' => c' = c ∧ u = l
  | .seq a b, c, u, c' => ∃ u1 u2 cm, u = u1 ++ u2 ∧ Sem a c u1 cm ∧ Sem b cm u2 c'
  | .opt a, c, u, c' => Sem a c u c' ∨ (u = [] ∧ c' = c)
  | .star p, c, u, c' => c' = c ∧ ∀ x ∈ u, p x = true
  | .group n a, c, u, c' => ∃ cm, Sem a c u cm ∧ c' = (n, u) :: cm

/-- Field shape `[0-9]{1,3}`. -/
def isDigits13 (u : List Char) : Bool :=
  decide (1 ≤ u.length) && decide (u.length ≤ 3) && u.all isDigit

/-- Field shape of a dotted quad: four groups of one to three digits separated by dots. -/
def DottedQuad (ip : List Char) : Prop :=
  ∃ a b c d, ip = a ++ '.' :: (b ++ '.' :: (c ++ '.' :: d)) ∧ isDigits13 a = true ∧
    isDigits13 b = true ∧ isDigits13 c = true ∧ isDigits13 d = true

/-- The fields `ParseMessage` stores for a message of type `t`, as the table of
grammars gives them: nothing for Init and Accept, a newline-free `reason` for
Deny and Reset, a digit `i` in 0..3 and non-empty base64 text `x`, `y` for
Dhpub, a dotted quad `ip` for Tunnip, and a dotted quad `ip` with a non-empty
decimal `port` for Conninfo. -/
def ValidFields (t : Int) (d : Data) : Prop :=
  (t = Init ∧ d = []) ∨
  (t = Accept ∧ d = []) ∨
  (t = Deny ∧ ∃ r, r.all isDot = true ∧ d = [("reason", r)]) ∨
  (t = Reset ∧ ∃ r, r.all isDot = true ∧ d = [("reason", r)]) ∨
  (t = Dhpub ∧ ∃ i x y, isDigit03 i = true ∧ (x ≠ [] ∧ x.all isB64 = true) ∧
    (y ≠ [] ∧ y.all isB64 = true) ∧ d = [("i", [i]), ("y", y), ("x", x)]) ∨
  (t = Tunnip ∧ ∃ ip, DottedQuad ip ∧ d = [("ip", ip)]) ∨
  (t = Conninfo ∧ ∃ ip port, DottedQuad ip ∧ (port ≠ [] ∧ port.all isDigit = true) ∧
    d = [("port", port), ("ip", ip)])

/-- Two Go maps hold the same keys with the same values. -/
def SameMap (d1 d2 : Data) : Prop := ∀ k, d1.lookup k = d2.lookup k

/-- A valid wire message: one of the seven wire types whose `Data` map holds
exactly the fields of its type, each of the shape its grammar allows. -/
def Valid (m : Message) : Prop := ∃ d, ValidFields m.Typ d ∧ SameMap m.Data d


/-- One `case` of the `switch` in `ParseMessage`: the pattern it tests and the
message it builds from a line that matches. -/
structure Grammar where
  re : RE
  build : List Char → Message

/-- The case `init.MatchString(message)`. -/
def initCase : Grammar := ⟨initRE, fun _ => { Typ := Init, Data := [] }⟩

/-- The case `accept.MatchString(message)`. -/
def acceptCase : Grammar := ⟨acceptRE, fun _ => { Typ := Accept, Data := [] }⟩

/-- The case `deny.MatchString(message)`. -/
def denyCase : Grammar :=
  ⟨denyRE, fun s =>
    { Typ := Deny, Data := Data.set [] "reason" (ReplaceAllString denyRE s "reason") }⟩

/-- The case `reset.MatchString(message)`. -/
def resetCase : Grammar :=
  ⟨resetRE, fun s =>
    { Typ := Reset, Data := Data.set [] "reason" (ReplaceAllString resetRE s "reason") }⟩

/-- The case `dhpub.MatchString(message)`. -/
def dhpubCase : Grammar :=
  ⟨dhpubRE, fun s =>
    { Typ := Dhpub,
      Data := ((Data.set [] "x" (ReplaceAllString dhpubRE s "x")).set "y"
        (ReplaceAllString dhpubRE s "y")).set "i" (ReplaceAllString dhpubRE s "i") }⟩

/-- The case `tunnip.MatchString(message)`. -/
def tunnipCase : Grammar :=
  ⟨tunnipRE, fun s =>
    { Typ := Tunnip, Data := Data.set [] "ip" (ReplaceAllString tunnipRE s "ip") }⟩

/-- The case `conninfo.MatchString(message)`. -/
def conninfoCase : Grammar :=
  ⟨conninfoRE, fun s =>
    { Typ := Conninfo,
      Data := (Data.set [] "ip" (ReplaceAllString conninfoRE s "ip")).set "port"
        (ReplaceAllString conninfoRE s "port") }⟩

/-- The cases in the order the `switch` of `ParseMessage` lists them. -/
def sourceOrder : List Grammar :=
  [initCase, acceptCase, denyCase, resetCase, dhpubCase, tunnipCase, conninfoCase]

/-- The cases in the order of the table of grammars (Reset last). -/
def tableOrder : List Grammar :=
  [initCase, acceptCase, denyCase, dhpubCase, tunnipCase, conninfoCase, resetCase]

/-- A `switch` over the cases `gs` tried in the order given. -/
def parseWith (gs : List Grammar) (message : List Char) : Except messageError Message :=
  match gs.find? (fun g => MatchString g.re message) with
  | some g => .ok (g.build message)
  | none => .error ⟨"Failed to parse message: ".toList ++ message⟩

/-- A line belongs to one of the seven grammars: it is the text `String` prints
for some wire type with valid fields. -/
def InGrammar (line : List Char) : Prop :=
  ∃ t d, ValidFields t d ∧ line = Message.String { Typ := t, Data := d }

/-- Example: a Dhpub message addressed to peer `bob`. -/
def exDhpub : Message :=
  { To := "bob", Typ := Dhpub,
    Data := [("i", ['2']), ("y", "QkI=".toList), ("x", "QUFB".toList)] }

/-- Example: the Conninfo message `ParseMessage` builds from
`CONNINFO 1.2.3.4 5000`. -/
def exConninfo : Message :=
  { Typ := Conninfo, Data := [("port", "5000".toList), ("ip", "1.2.3.4".toList)] }

/-- The outcome of `ParseMessage` on a line it rejects: no message, and the
parse error that cites the line. -/
def Rejected (line : List Char) : Prop :=
  ParseMessage line = .error ⟨"Failed to parse message: ".toList ++ line⟩

/-! ## Library functions used by `message.go` and `state.go`

`strconv.Atoi`, `fmt.Sprintf("%d", _)`, `encoding/base64` (standard alphabet,
padded, not strict) and `math/big` byte conversion, for a 64-bit `int`. -/

/-- Value of a run of decimal digits. -/
def digitsVal (s : List Char) : Nat :=
  s.foldl (fun n c => n * 10 + (c.toNat - '0'.toNat)) 0

/-- `strconv.Atoi`: the value and whether an error was returned.  An optional
sign is followed by one or more digits; a syntax error gives 0 and a value out
of the range of `int` gives the nearest bound. -/
def Atoi (s : List Char) : Int × Bool :=
  let neg := s.head? = some '-'
  let ds := if s.head? = some '-' ∨ s.head? = some '+' then s.tail else s
  if ds = [] ∨ ds.all isDigit = false then (0, true)
  else
    let n := digitsVal ds
    if neg then (if n > 2 ^ 63 then (-(2 ^ 63 : Int), true) else (-(n : Int), false))
    else (if n ≥ 2 ^ 63 then ((2 ^ 63 - 1 : Int), true) else ((n : Int), false))

/-- `fmt.Sprintf("%d", i)`. -/
def fmtInt (i : Int) : List Char :=
  if i < 0 then '-' :: Nat.toDigits 10 i.natAbs else Nat.toDigits 10 i.toNat

/-- The standard base64 alphabet. -/
def b64alphabet : List Char :=
  "ABCDEFGHIJKLMNOPQRSTUVWXYZabcdefghijklmnopqrstuvwxyz0123456789+/".toList

/-- The 6-bit value of a base64 character, `none` outside the alphabet. -/
def b64val (c : Char) : Option Nat :=
  let i := b64alphabet.indexOf c
  if i < 64 then some i else none

/-- The base64 character of a 6-bit value. -/
def b64chr (v : Nat) : Char := b64alphabet.getD (v % 64) 'A'

/-- Decoding of the text with `\r` and `\n` already dropped, four characters at
a time; `none` is `CorruptInputError`.  Padding is required, may only close the
last group, and nothing may follow it. -/
def b64quanta : List Char → Option (List Nat)
  | [] => some []
  | a :: b :: c :: d :: rest =>
    match b64val a, b64val b with
    | some va, some vb =>
      if c = '=' then
        if d = '=' ∧ rest = [] then some [(va * 4 + vb / 16) % 256] else none
      else
        match b64val c with
        | none => none
        | some vc =>
          if d = '=' then
            if rest = [] then
              some [(va * 4 + vb / 16) % 256, (vb * 16 + vc / 4) % 256]
            else none
          else
            match b64val d with
            | none => none
            | some vd =>
              (b64quanta rest).map (fun bs =>
                (va * 4 + vb / 16) % 256 :: (vb * 16 + vc / 4) % 256 ::
                  (vc * 64 + vd) % 256 :: bs)
    | _, _ => none
  | _ => none

/-- `base64.StdEncoding.DecodeString`: `\r` and `\n` are ignored wherever they
stand; `none` is a non-nil error. -/
def b64decode (s : List Char) : Option (List Nat) :=
  b64quanta (s.filter (fun c => c != '\n' && c != '\r'))

/-- `base64.StdEncoding.EncodeToString` on a list of bytes. -/
def b64encode : List Nat → List Char
  | [] => []
  | [a] => [b64chr (a / 4), b64chr (a % 4 * 16), '=', '=']
  | [a, b] => [b64chr (a / 4), b64chr (a % 4 * 16 + b / 16), b64chr (b % 16 * 4), '=']
  | a :: b :: c :: rest =>
    b64chr (a / 4) :: b64chr (a % 4 * 16 + b / 16) :: b64chr (b % 16 * 4 + c / 64) ::
      b64chr (c % 64) :: b64encode rest

/-- `big.Int.SetBytes`: the bytes read as a big-endian unsigned number. -/
def SetBytes (bs : List Nat) : Nat := bs.foldl (fun n b => n * 256 + b % 256) 0

/-- Big-endian digits of `n` in base 256 put in front of `acc`; `fuel` bounds
the number of digits. -/
def bytesAux : Nat → Nat → List Nat → List Nat
  | 0, _, acc => acc
  | fuel + 1, n, acc => if n = 0 then acc else bytesAux fuel (n / 256) (n % 256 :: acc)

/-- `big.Int.Bytes` of a non-negative number: its big-endian bytes without
leading zeros (none at all for 0). -/
def Bytes (n : Nat) : List Nat := bytesAux n n []

/-! ## `message.go`: accessors -/

/-- `Message.DhParams`: `(x, y, i)` or the base64 error; a `*big.Int` is
`Option Nat` (nil is `none`).  The error of `Atoi` is discarded. -/
def Message.DhParams (m : Message) : Except Unit (Option Nat × Option Nat × Int) :=
  if m.Typ = Dhpub then
    match b64decode (m.Data.get "x") with
    | none => .error ()
    | some xBytes =>
      match b64decode (m.Data.get "y") with
      | none => .error ()
      | some yBytes =>
        let x := SetBytes xBytes
        let y := SetBytes yBytes
        let i := (Atoi (m.Data.get "i")).1
        .ok (some x, some y, i)
  else .ok (none, none, 0)

/-- A `net.IP`: nil (`none`) or an IPv4 address, given by its value as a 32-bit
unsigned integer. -/
abbrev IP := Option Nat

/-- `dh.Params` (package `tvpn/dh`): the public components read by `state.go`,
each a `*big.Int`. -/
structure dh.Params where
  X : Option Nat
  Y : Option Nat
deriving DecidableEq, Repr

/-- One call of `vpn.Connect` with its arguments in source order. -/
structure ConnectCall where
  remoteip : List Char
  tunIP : List Char
  remoteport : Int
  localport : Int
  key : List (Option Nat)
  dir : Bool
deriving DecidableEq, Repr

/-- The collaborators and library functions `state.go` calls, each a function of
the number of calls made before (and of its arguments): `dh.GenParams` through
its two components, `dh.GenMutSecret` (which returns a secret, never nil),
`alloc.Request(nil)`, `rgen.Int()` (non-negative), `stun.DiscoverExt(port)`
(`none` when it returns an error), `vpn.Connect` (`true` when it returns an
error), `net.ParseIP` and `net.IP.String`. -/
structure Env where
  GenX : Nat → Nat
  GenY : Nat → Nat
  GenMutSecret : dh.Params → dh.Params → Nat
  Request : Nat → IP
  rgenInt : Nat → Nat
  DiscoverExt : Nat → Int → Option (IP × Int)
  Connect : Nat → ConnectCall → Bool
  ParseIP : List Char → IP
  IPString : IP → List Char

/-- Modelled from the spec: `dh.GenParams` (package `tvpn/dh` is not among the
sources), "generateParameters() -> pair{public components}": the call returns a
pair whose two components are present. -/
def dh.GenParams (env : Env) (k : Nat) : dh.Params := ⟨some (env.GenX k), some (env.GenY k)⟩

/-- Modelled from the spec: `isGreater` (its source is not among the files), "compare
the remote address and the local address numerically as 32-bit unsigned
integers; if the remote address is strictly greater".  With a nil address on
either side the answer is no. -/
def isGreater (a b : IP) : Bool :=
  match a, b with
  | some x, some y => decide (x > y)
  | _, _ => false

/-- `Message.IPInfo`; the error of `Atoi` is discarded. -/
def Message.IPInfo (env : Env) (m : Message) : IP × Int :=
  if m.Typ = Tunnip then (env.ParseIP (m.Data.get "ip"), 0)
  else if m.Typ = Conninfo then
    let port := (Atoi (m.Data.get "port")).1
    (env.ParseIP (m.Data.get "ip"), port)
  else (none, 0)

/-! ## `state.go` -/

/-- The `ConState` struct.  `Params` and `Key` are slices (`[]` is nil); an entry
of `Key` is a `*big.Int`. -/
structure ConState where
  State : Int
  Name : String
  Params : List dh.Params
  Key : List (Option Nat)
  IP : IP
  Port : Int
  Friend : Bool
  Init : Bool
deriving DecidableEq, Repr

/-- State constant `NoneState`. -/
def NoneState : Int := 0
/-- State constant `InitState`. -/
def InitState : Int := 1
/-- State constant `DHNeg`. -/
def DHNeg : Int := 2
/-- State constant `TunNeg`. -/
def TunNeg : Int := 3
/-- State constant `ConNeg`. -/
def ConNeg : Int := 4
/-- State constant `Connected`. -/
def Connected : Int := 5
/-- State constant `DeleteMe`. -/
def DeleteMe : Int := 6

/-- What the handlers have done to the outside so far: the messages handed to
`sig.SendMessage` (oldest first), the number of `dh.GenParams`, `alloc.Request`
and `rgen.Int` calls, the addresses handed to `alloc.Release`, the ports handed
to `stun.DiscoverExt` and the calls of `vpn.Connect`. -/
structure World where
  sent : List Message := []
  genCalls : Nat := 0
  requests : Nat := 0
  released : List IP := []
  randCalls : Nat := 0
  stunCalls : List Int := []
  connects : List ConnectCall := []
deriving DecidableEq, Repr

/-- `sig.SendMessage(m)`. -/
def SendMessage (w : World) (m : Message) : World := { w with sent := w.sent ++ [m] }

/-- `ConState.InitState`. -/
def ConState.InitState (st : ConState) (name : String) (friend init : Bool) (w : World) :
    ConState × World :=
  let st := { st with Name := name, Friend := friend, Init := init }
  if init then
    let w := SendMessage w { Typ := tvpn.Init, To := name }
    ({ st with State := tvpn.InitState }, w)
  else
    ({ st with State := tvpn.NoneState }, w)

/-- `ConState.Reset` (the log line written for a non-empty reason is left out). -/
def ConState.Reset (st : ConState) (_reason : List Char) (w : World) : ConState × World :=
  let st := { st with State := tvpn.NoneState, Params := [], Key := [], IP := none, Port := 0 }
  ConState.InitState st st.Name st.Friend st.Init w

/-- The zero value of `dh.Params`. -/
def dh.Params.zero : dh.Params := ⟨none, none⟩

/-- The `Conninfo` message of `tunnegState`, for peer `name`, the discovered
address text `ip` and the discovered port. -/
def conninfoMsg (name : String) (ip : List Char) (port : Int) : Message :=
  { Typ := Conninfo, To := name, Data := [("port", fmtInt port), ("ip", ip)] }

/-- The `Deny` message of `noneState`. -/
def denyMsg : Message := { Typ := Deny, Data := [("reason", "Not Authorized".toList)] }

/-- The `Dhpub` message of the loop: the index in decimal and the base64 text of
the bytes of the two components. -/
def dhpubMsg (i : Nat) (x y : Nat) : Message :=
  { Typ := Dhpub,
    Data := [("i", fmtInt i), ("x", b64encode (Bytes x)), ("y", b64encode (Bytes y))] }

/-- Body of the loop `for i := 0; i < 4; i++` of `noneState` and `initState`:
store fresh parameters in slot `i` and send their `Dhpub`.  `none` is a run-time
panic (index out of range, or `Bytes` of a nil `*big.Int`). -/
def dhpubStep (env : Env) (acc : ConState × World) (i : Nat) : Option (ConState × World) :=
  let st := acc.1
  let w := acc.2
  if i < st.Params.length then
    let p := dh.GenParams env w.genCalls
    let w := { w with genCalls := w.genCalls + 1 }
    let st := { st with Params := st.Params.set i p }
    match p.X, p.Y with
    | some x, some y =>
      let w := SendMessage w (dhpubMsg i x y)
      some (st, w)
    | _, _ => none
  else none

/-- The part `noneState` and `initState` share: `make` the two slices of 4, run
the loop over `i = 0, 1, 2, 3`, then `st.State = DHNeg`. -/
def startDH (env : Env) (st : ConState) (w : World) : Option (ConState × World) :=
  let st := { st with Params := List.replicate 4 dh.Params.zero }
  let st := { st with Key := List.replicate 4 none }
  ([0, 1, 2, 3].foldlM (dhpubStep env) (st, w)).map
    (fun r => ({ r.1 with State := DHNeg }, r.2))

/-- The `default` branch of a handler: send `Reset` with the reason given, then
`st.Reset(sig, "")`. -/
def resetWith (reason : String) (st : ConState) (w : World) : ConState × World :=
  let w := SendMessage w { Typ := tvpn.Reset, Data := [("reason", reason.toList)] }
  ConState.Reset st [] w

/-- `ConState.noneState`. -/
def noneState (env : Env) (st : ConState) (mes : Message) (w : World) :
    Option (ConState × World) :=
  if mes.Typ = tvpn.Init then
    if st.Friend then
      let w := SendMessage w { Typ := Accept, To := st.Name }
      startDH env st w
    else
      let w := SendMessage w denyMsg
      some ({ st with State := DeleteMe }, w)
  else
    some (resetWith "Invalid state: None" st w)

/-- `ConState.initState`. -/
def initState (env : Env) (st : ConState) (mes : Message) (w : World) :
    Option (ConState × World) :=
  if mes.Typ = Accept then
    startDH env st w
  else
    some (resetWith "Invalid state: Init" st w)

/-- The `Tunnip` message of `dhnegState`, for peer `name` and address text `ip`. -/
def tunnipMsg (name : String) (ip : List Char) : Message :=
  { Typ := Tunnip, To := name, Data := [("ip", ip)] }

/-- `ConState.dhnegState`.  `none` is the index-out-of-range panic of
`st.Key[i]` or `st.Params[i]`. -/
def dhnegState (env : Env) (st : ConState) (mes : Message) (w : World) :
    Option (ConState × World) :=
  if mes.Typ = Dhpub then
    match mes.DhParams with
    | .error _ => some (resetWith "Invalid DH Params" st w)
    | .ok (x, y, i) =>
      if 0 ≤ i ∧ i.toNat < st.Key.length then
        match st.Params[i.toNat]? with
        | none => none
        | some p =>
          let st := { st with Key := st.Key.set i.toNat (some (env.GenMutSecret p ⟨x, y⟩)) }
          if st.Key.any (fun v => v.isNone) then
            some (st, w)
          else
            let st := { st with IP := env.Request w.requests }
            let w := { w with requests := w.requests + 1 }
            let w := SendMessage w (tunnipMsg st.Name (env.IPString st.IP))
            some ({ st with State := TunNeg }, w)
      else none
  else
    some (resetWith "Invalid state: DHNeg" st w)

/-- The port expression of `tunnegState`, `rgen.Int() % (65536 - 49152) + 49152`,
for the non-negative value `r` that `rgen.Int()` returned. -/
def choosePort (r : Nat) : Int := Int.tmod (r : Int) (65536 - 49152) + 49152

/-- `ConState.tunnegState`. -/
def tunnegState (env : Env) (st : ConState) (mes : Message) (w : World) :
    Option (ConState × World) :=
  if mes.Typ = Tunnip then
    let ip := (mes.IPInfo env).1
    let released := if isGreater ip st.IP then w.released ++ [st.IP] else w.released
    let st := if isGreater ip st.IP then { st with IP := ip } else st
    let w := { w with released := released }
    let st := { st with Port := choosePort (env.rgenInt w.randCalls) }
    let w := { w with randCalls := w.randCalls + 1 }
    let found := env.DiscoverExt w.stunCalls.length st.Port
    let w := { w with stunCalls := w.stunCalls ++ [st.Port] }
    match found with
    | none => some (resetWith "Failed to discover external connection info" st w)
    | some (ip, port) =>
      let w := SendMessage w (conninfoMsg st.Name (env.IPString ip) port)
      some ({ st with State := ConNeg }, w)
  else
    some (resetWith "Invalid state: DHNeg" st w)

/-- `ConState.connegState`; what `vpn.Connect` returns is not looked at. -/
def connegState (env : Env) (st : ConState) (mes : Message) (w : World) :
    Option (ConState × World) :=
  if mes.Typ = Conninfo then
    let ip := (mes.IPInfo env).1
    let port := (mes.IPInfo env).2
    let call : ConnectCall :=
      ⟨env.IPString ip, env.IPString st.IP, port, st.Port, st.Key, st.Init⟩
    let w := { w with connects := w.connects ++ [call] }
    some ({ st with State := Connected }, w)
  else
    some (resetWith "Invalid state: DHNeg" st w)

/-- `ConState.connectedState`: the empty body. -/
def connectedState (st : ConState) (_mes : Message) (w : World) : Option (ConState × World) :=
  some (st, w)

/-- `ConState.Input`: dispatch on `st.State`; the `default` case does nothing.
`none` is a run-time panic. -/
def Input (env : Env) (st : ConState) (mes : Message) (w : World) :
    Option (ConState × World) :=
  if st.State = NoneState then noneState env st mes w
  else if st.State = tvpn.InitState then initState env st mes w
  else if st.State = DHNeg then dhnegState env st mes w
  else if st.State = TunNeg then tunnegState env st mes w
  else if st.State = ConNeg then connegState env st mes w
  else if st.State = Connected then connectedState st mes w
  else some (st, w)

/-- Example collaborators: parameters `(k + 1, k + 2)` on call `k`, secret
`X + X'`, allocator handing out `10.0.0.4`, random source returning 70000,
discovery answering `1.2.3.4:5000`, a dotted-quad reader that knows two
addresses and a printer that writes the number. -/
def exEnv : Env where
  GenX := fun k => k + 1
  GenY := fun k => k + 2
  GenMutSecret := fun p q => p.X.getD 0 + q.X.getD 0
  Request := fun _ => some 167772164
  rgenInt := fun _ => 70000
  DiscoverExt := fun _ _ => some (some 16909060, 5000)
  Connect := fun _ _ => false
  ParseIP := fun s =>
    if s = "10.0.0.8".toList then some 167772168
    else if s = "10.0.0.4".toList then some 167772164 else none
  IPString := fun ip => match ip with
    | some n => Nat.toDigits 10 n
    | none => "<nil>".toList

/-- Example: a fresh responder conversation with peer `bob`. -/
def exState (friend : Bool) : ConState :=
  { State := NoneState, Name := "bob", Params := [], Key := [], IP := none, Port := 0,
    Friend := friend, Init := false }

/-- The message type a state has a `case` for: Init in None, Accept in Init,
Dhpub in DHNeg, Tunnip in TunNeg, Conninfo in ConNeg; Connected and DeleteMe
have no `case` at all. -/
def accepts (state typ : Int) : Bool :=
  (state == NoneState && typ == tvpn.Init) || (state == tvpn.InitState && typ == Accept) ||
  (state == DHNeg && typ == Dhpub) || (state == TunNeg && typ == Tunnip) ||
  (state == ConNeg && typ == Conninfo)

/-- The states with a handler that has a `default` branch. -/
def handshakeState (state : Int) : Bool :=
  state == NoneState || state == tvpn.InitState || state == DHNeg || state == TunNeg ||
    state == ConNeg

/-- Number of `Reset` messages among those sent. -/
def countReset (ms : List Message) : Nat := ms.countP (fun m => m.Typ == tvpn.Reset)

/-- The conversation after a local reset of `st`: state None, or Init for an
initiator, with parameters, secrets, tunnel address and port cleared and the
rest kept. -/
def afterReset (st : ConState) : ConState :=
  { State := if st.Init then tvpn.InitState else NoneState, Name := st.Name, Params := [],
    Key := [], IP := none, Port := 0, Friend := st.Friend, Init := st.Init }

/-- Example: a conversation with peer `bob` in state Connected. -/
def exConnected : ConState :=
  { State := Connected, Name := "bob", Params := List.replicate 4 ⟨some 1, some 2⟩,
    Key := [some 5, some 6, some 7, some 8], IP := some 167772164, Port := 50000,
    Friend := true, Init := false }

/-- Example: a conversation with peer `bob` in DHNeg holding the secrets of
slots 0, 1 and 2. -/
def exDHNeg : ConState :=
  { State := DHNeg, Name := "bob", Params := List.replicate 4 ⟨some 1, some 2⟩,
    Key := [some 5, some 6, some 7, none], IP := none, Port := 0,
    Friend := true, Init := false }

/-- Example: a conversation in TunNeg whose tunnel address is `a`. -/
def exTunNeg (a : Nat) : ConState :=
  { State := TunNeg, Name := "bob", Params := List.replicate 4 ⟨some 1, some 2⟩,
    Key := [some 5, some 6, some 7, some 8], IP := some a, Port := 0,
    Friend := true, Init := false }

/-- Example: the message `TUNNIP` carrying the text `ip`. -/
def exTunnip (ip : String) : Message := { Typ := Tunnip, Data := [("ip", ip.toList)] }

/-! ## `tvpn.go`: the orchestrator -/

/-- Go `m[k] = v` on a map from peer names. -/
def mapSet {α : Type} (m : List (String × α)) (k : String) (v : α) : List (String × α) :=
  (k, v) :: m.filter (fun e => e.1 != k)

/-- Go `delete(m, k)` on a map from peer names. -/
def mapDelete {α : Type} (m : List (String × α)) (k : String) : List (String × α) :=
  m.filter (fun e => e.1 != k)

/-- The `TVPN` struct: names, the friend list and the map `States` from peer
name to conversation (`Sig`, `Stun`, `VPN` and `Alloc` are the collaborators of
`Env` and `World`).  A conversation is stored by pointer, so what a handler
does to it shows in the map. -/
structure TVPN where
  Name : String := ""
  Group : String := ""
  Friends : List String := []
  States : List (String × ConState) := []
deriving DecidableEq, Repr

/-- `TVPN.IsFriend`. -/
def TVPN.IsFriend (t : TVPN) (name : String) : Bool := t.Friends.any (fun v => v == name)

/-- The zero value `ConState{}`. -/
def ConState.zero : ConState :=
  { State := 0, Name := "", Params := [], Key := [], IP := none, Port := 0,
    Friend := false, Init := false }

/-- Modelled from the spec: `NewState` (its source is not among the files), "create
a new conversation for the sender (responder role, ...)" and "create a new
conversation in initiator role, which immediately sends its own `Init` per the
`Init`-state seeding rule": a zero conversation seeded by `InitState`. -/
def NewState (name : String) (friend init : Bool) (w : World) : ConState × World :=
  ConState.InitState ConState.zero name friend init w

/-- One turn of the loop of `TVPN.Run` on the message `msg` that
`t.Sig.RecvMessage()` returned (the lines printed are left out).  `cleanup` is
`ConState.Cleanup`, whose source is not among the files.  `none` is a run-time
panic: `Reset` called through the nil pointer that `t.States[msg.From]` is for
an unknown peer assigns to `st.State`, or a handler panics. -/
def dispatch (env : Env) (cleanup : ConState → World → World) (t : TVPN) (msg : Message)
    (w : World) : Option (TVPN × World) :=
  if msg.Typ = tvpn.Init then
    let friend := t.IsFriend msg.From
    let made := NewState msg.From friend false w
    (Input env made.1 msg made.2).map
      (fun r => ({ t with States := mapSet t.States msg.From r.1 }, r.2))
  else if msg.Typ = Join then
    if t.IsFriend msg.From then
      let made := NewState msg.From true true w
      some ({ t with States := mapSet t.States msg.From made.1 }, made.2)
    else some (t, w)
  else if msg.Typ = Quit then
    match t.States.lookup msg.From with
    | some st => some ({ t with States := mapDelete t.States msg.From }, cleanup st w)
    | none => some (t, w)
  else if msg.Typ = tvpn.Reset then
    match t.States.lookup msg.From with
    | some st =>
      let r := ConState.Reset st (msg.Data.get "reason") w
      some ({ t with States := mapSet t.States msg.From r.1 }, r.2)
    | none => none
  else
    match t.States.lookup msg.From with
    | some st =>
      (Input env st msg w).map
        (fun r => ({ t with States := mapSet t.States msg.From r.1 }, r.2))
    | none => some (t, w)

/-- The conversations a freshly created one can turn into: `NewState` for a
responder or an initiator, then any number of `Input` steps that return and of
local resets. -/
inductive Reachable (env : Env) : ConState → World → Prop where
  | fresh (name : String) (friend init : Bool) (w : World) :
      Reachable env (NewState name friend init w).1 (NewState name friend init w).2
  | input (st : ConState) (w : World) (mes : Message) (st' : ConState) (w' : World) :
      Reachable env st w → Input env st mes w = some (st', w') → Reachable env st' w'
  | reset (st : ConState) (w : World) (reason : List Char) :
      Reachable env st w →
      Reachable env (ConState.Reset st reason w).1 (ConState.Reset st reason w).2

/-- Every slot of `Key` holds a secret. -/
def allSecrets (key : List (Option Nat)) : Bool := key.all (fun v => v.isSome)

/-- Example: collaborators like `exEnv` whose `vpn.Connect` returns an error. -/
def exEnvConnectFails : Env := { exEnv with Connect := fun _ _ => true }

/-- Example: a conversation with peer `bob` in ConNeg. -/
def exConNeg : ConState :=
  { State := ConNeg, Name := "bob", Params := List.replicate 4 ⟨some 1, some 2⟩,
    Key := [some 5, some 6, some 7, some 8], IP := some 167772164, Port := 50000,
    Friend := true, Init := false }

/-- Example: the message of the line `CONNINFO 10.0.0.8 5000` from peer `bob`. -/
def exConninfoFrom : Message :=
  { From := "bob", Typ := Conninfo,
    Data := [("port", "5000".toList), ("ip", "10.0.0.8".toList)] }

/-- Example: the call of `vpn.Connect` that `exConNeg` makes on `exConninfoFrom`. -/
def exConnectCall : ConnectCall :=
  ⟨Nat.toDigits 10 167772168, Nat.toDigits 10 167772164, 5000, 50000,
    [some 5, some 6, some 7, some 8], false⟩

/-- Example: a Dhpub message, not made by `ParseMessage`, whose index is 7. -/
def exDhpubSeven : Message :=
  { From := "bob", Typ := Dhpub,
    Data := [("i", ['7']), ("y", "QkI=".toList), ("x", "QUFB".toList)] }

/-- Example: an orchestrator with no friend and no conversation. -/
def exTVPN : TVPN := { Name := "alice", Group := "g" }

/-- Example: a `Cleanup` that touches nothing. -/
def exCleanup : ConState → World → World := fun _ w => w

/-- The slot invariant of a conversation: in DHNeg there are exactly 4 secret
slots and 4 parameter slots, and in TunNeg, ConNeg and Connected there are
exactly 4 secret slots and each holds a secret. -/
def slotsOk (st : ConState) : Prop :=
  (st.State = DHNeg → st.Key.length = 4 ∧ st.Params.length = 4) ∧
  (st.State = TunNeg ∨ st.State = ConNeg ∨ st.State = Connected →
    st.Key.length = 4 ∧ allSecrets st.Key = true)

/-- `Input` of the messages `msgs`, one after the other. -/
def runInputs (env : Env) (st : ConState) (w : World) : List Message → Option (ConState × World)
  | [] => some (st, w)
  | m :: ms =>
    match Input env st m w with
    | none => none
    | some r => runInputs env r.1 r.2 ms

/-- Example: the Dhpub message with index text `i` and components `AAA`, `BB`. -/
def exDhpubAt (i : String) : Message :=
  { From := "bob", Typ := Dhpub,
    Data := [("i", i.toList), ("y", "QkI=".toList), ("x", "QUFB".toList)] }

/-- Example: an Init followed by the four Dhpub messages of the peer. -/
def exHandshake : List Message :=
  [{ Typ := tvpn.Init, From := "bob" }, exDhpubAt "0", exDhpubAt "1", exDhpubAt "2",
    exDhpubAt "3"]

/-- Example: the Dhpub message of the line `DHPUB 0 !!!notbase64!!! AAAA`, were
it to reach a handler. -/
def exDhpubBad : Message :=
  { From := "bob", Typ := Dhpub,
    Data := [("i", ['0']), ("y", "AAAA".toList), ("x", "!!!notbase64!!!".toList)] }

/-- Example: the conversation with `bob` after `exHandshake`. -/
def exReached : ConState :=
  { State := TunNeg, Name := "bob",
    Params := [⟨some 1, some 2⟩, ⟨some 2, some 3⟩, ⟨some 3, some 4⟩, ⟨some 4, some 5⟩],
    Key := [some 4276546, some 4276547, some 4276548, some 4276549],
    IP := some 167772164, Port := 0, Friend := true, Init := false }

/-- Example: what has been sent and called after `exHandshake`. -/
def exReachedWorld : World :=
  { sent := [{ Typ := Accept, To := "bob" }, dhpubMsg 0 1 2, dhpubMsg 1 2 3, dhpubMsg 2 3 4,
      dhpubMsg 3 4 5, tunnipMsg "bob" (Nat.toDigits 10 167772164)],
    genCalls := 4, requests := 1 }

/-- Example: the conversation a peer outside the friend list is left with. -/
def exDenied : ConState :=
  { State := DeleteMe, Name := "mallory", Params := [], Key := [], IP := none, Port := 0,
    Friend := false, Init := false }
theorem stripLit_eq_some (l s t : List Char) : stripLit l s = some t ↔ s = l ++ t := by
  induction l generalizing s with
  | nil => simp [stripLit, eq_comm]
  | cons a l ih =>
    cases s with
    | nil => simp [stripLit]
    | cons x s =>
      by_cases h : a = x
      · subst h; simp [stripLit, ih]
      · simp [stripLit, h]; intro h'; exact absurd h'.symm h

theorem mem_starRun (p : Char → Bool) (s t : List Char) :
    t ∈ starRun p s ↔ ∃ u, s = u ++ t ∧ ∀ x ∈ u, p x = true := by
  induction s with
  | nil =>
    simp only [starRun, List.mem_singleton]
    constructor
    · intro h; exact ⟨[], by simp [h], by simp⟩
    · rintro ⟨u, h, -⟩
      have := congrArg List.length h
      simp at this
      exact List.length_eq_zero.mp (by omega)
  | cons x s ih =>
    by_cases hp : p x = true
    · simp only [starRun, hp, if_true, List.mem_append, List.mem_singleton, ih]
      constructor
      · rintro (⟨u, h, hu⟩ | h)
        · exact ⟨x :: u, by simp [h], by simpa [hp] using hu⟩
        · exact ⟨[], by simp [h], by simp⟩
      · rintro ⟨u, h, hu⟩
        cases u with
        | nil => right; simpa using h.symm
        | cons y u =>
          left
          simp only [List.cons_append, List.cons.injEq] at h
          exact ⟨u, h.2, fun z hz => hu z (List.mem_cons_of_mem _ hz)⟩
    · simp only [starRun, hp, Bool.false_eq_true, if_false, List.mem_singleton]
      constructor
      · intro h; exact ⟨[], by simp [h], by simp⟩
      · rintro ⟨u, h, hu⟩
        cases u with
        | nil => simpa using h.symm
        | cons y u =>
          simp only [List.cons_append, List.cons.injEq] at h
          exact absurd (hu y (List.mem_cons_self _ _)) (by rw [← h.1]; exact hp)

/-- The backtracking matcher enumerates exactly the matches of `Sem`. -/
theorem mem_run (r : RE) (c : Caps) (s : List Char) (c' : Caps) (s' : List Char) :
    (c', s') ∈ run r c s ↔ ∃ u, s = u ++ s' ∧ Sem r c u c' := by
  induction r generalizing c s c' s' with
  | chr p =>
    cases s with
    | nil => simp [run, Sem]
    | cons x t =>
      by_cases hp : p x = true
      · simp only [run, hp, if_true, List.mem_singleton, Prod.mk.injEq, Sem]
        constructor
        · rintro ⟨rfl, rfl⟩; exact ⟨[x], by simp, rfl, x, rfl, hp⟩
        · rintro ⟨u, h, rfl, y, rfl, -⟩
          simp at h; exact ⟨rfl, h.2.symm⟩
      · simp only [run, hp, Sem]
        simp only [Bool.false_eq_true, if_false, List.not_mem_nil, false_iff]
        rintro ⟨u, h, -, y, rfl, hy⟩
        simp at h; rw [← h.1] at hy; exact hp hy
  | lit l =>
    simp only [run, Sem]
    cases hs : stripLit l s with
    | none =>
      simp only [List.not_mem_nil, false_iff]
      rintro ⟨u, h, -, rfl⟩
      have := (stripLit_eq_some u s s').2 h
      simp [hs] at this
    | some t =>
      have ht := (stripLit_eq_some l s t).1 hs
      simp only [List.mem_singleton, Prod.mk.injEq]
      constructor
      · rintro ⟨rfl, rfl⟩; exact ⟨l, ht, rfl, rfl⟩
      · rintro ⟨u, h, rfl, rfl⟩
        rw [ht] at h
        exact ⟨rfl, (List.append_cancel_left h).symm⟩
  | seq a b iha ihb =>
    simp only [run, Sem, List.mem_flatMap, Prod.exists, iha, ihb]
    constructor
    · rintro ⟨cm, sm, ⟨u1, h1, ha⟩, u2, h2, hb⟩
      exact ⟨u1 ++ u2, by simp [h1, h2], u1, u2, cm, rfl, ha, hb⟩
    · rintro ⟨u, h, u1, u2, cm, rfl, ha, hb⟩
      exact ⟨cm, u2 ++ s', ⟨u1, by simp [h], ha⟩, u2, rfl, hb⟩
  | opt a iha =>
    simp only [run, Sem, List.mem_append, iha, List.mem_singleton, Prod.mk.injEq]
    constructor
    · rintro (⟨u, h, ha⟩ | ⟨rfl, rfl⟩)
      · exact ⟨u, h, Or.inl ha⟩
      · exact ⟨[], rfl, Or.inr ⟨rfl, rfl⟩⟩
    · rintro ⟨u, h, ha | ⟨rfl, rfl⟩⟩
      · exact Or.inl ⟨u, h, ha⟩
      · exact Or.inr ⟨rfl, by simpa using h.symm⟩
  | star p =>
    simp only [run, Sem, List.mem_map, Prod.mk.injEq, mem_starRun]
    constructor
    · rintro ⟨t, ⟨u, h, hu⟩, rfl, rfl⟩; exact ⟨u, h, rfl, hu⟩
    · rintro ⟨u, h, rfl, hu⟩; exact ⟨s', ⟨u, h, hu⟩, rfl, rfl⟩
  | group n a iha =>
    simp only [run, Sem, List.mem_map, Prod.mk.injEq, Prod.exists, iha]
    constructor
    · rintro ⟨cm, sm, ⟨u, h, ha⟩, rfl, rfl⟩
      refine ⟨u, h, cm, ha, ?_⟩
      simp [h]
    · rintro ⟨u, h, cm, ha, rfl⟩
      exact ⟨cm, s', ⟨u, h, ha⟩, by simp [h], rfl⟩

theorem matchRE_eq_none (r : RE) (s : List Char) :
    matchRE r s = none ↔ ∀ c, ¬ Sem r [] s c := by
  simp only [matchRE, Option.map_eq_none', List.find?_eq_none, Prod.forall]
  constructor
  · intro h c hc
    exact h c [] ((mem_run r [] s c []).2 ⟨s, by simp, hc⟩) (by simp)
  · intro h c t hm ht
    simp only [List.isEmpty_iff] at ht
    subst ht
    obtain ⟨u, hu, hs⟩ := (mem_run r [] s c []).1 hm
    simp at hu; subst hu
    exact h c hs

theorem matchRE_sound (r : RE) (s : List Char) (c : Caps) (h : matchRE r s = some c) :
    Sem r [] s c := by
  simp only [matchRE, Option.map_eq_some', Prod.exists] at h
  obtain ⟨c0, t, hf, rfl⟩ := h
  have hm := List.mem_of_find?_eq_some hf
  have ht := List.find?_some hf
  simp only [List.isEmpty_iff] at ht
  subst ht
  obtain ⟨u, hu, hs⟩ := (mem_run r [] s c0 []).1 hm
  simp at hu; subst hu
  exact hs

theorem matchRE_of_unique (r : RE) (s : List Char) (c : Caps) (h : Sem r [] s c)
    (huniq : ∀ c', Sem r [] s c' → c' = c) : matchRE r s = some c := by
  cases hm : matchRE r s with
  | none => exact absurd h ((matchRE_eq_none r s).1 hm c)
  | some c' => rw [huniq c' (matchRE_sound r s c' hm)]

theorem Sem_chr (p : Char → Bool) (c : Caps) (u : List Char) (c' : Caps) :
    Sem (.chr p) c u c' ↔ c' = c ∧ ∃ x, u = [x] ∧ p x = true := Iff.rfl

theorem Sem_lit (l : List Char) (c : Caps) (u : List Char) (c' : Caps) :
    Sem (.lit l) c u c' ↔ c' = c ∧ u = l := Iff.rfl

theorem Sem_seq (a b : RE) (c : Caps) (u : List Char) (c' : Caps) :
    Sem (.seq a b) c u c' ↔ ∃ u1 u2 cm, u = u1 ++ u2 ∧ Sem a c u1 cm ∧ Sem b cm u2 c' :=
  Iff.rfl

theorem Sem_star (p : Char → Bool) (c : Caps) (u : List Char) (c' : Caps) :
    Sem (.star p) c u c' ↔ c' = c ∧ ∀ x ∈ u, p x = true := Iff.rfl

theorem Sem_group (n : String) (a : RE) (c : Caps) (u : List Char) (c' : Caps) :
    Sem (.group n a) c u c' ↔ ∃ cm, Sem a c u cm ∧ c' = (n, u) :: cm := Iff.rfl

theorem Sem_plus (p : Char → Bool) (c : Caps) (u : List Char) (c' : Caps) :
    Sem (RE.plus p) c u c' ↔ c' = c ∧ u ≠ [] ∧ u.all p = true := by
  simp only [RE.plus, Sem, List.all_eq_true]
  constructor
  · rintro ⟨u1, u2, cm, rfl, ⟨rfl, x, rfl, hx⟩, rfl, h2⟩
    refine ⟨rfl, by simp, ?_⟩
    intro y hy
    simp only [List.singleton_append, List.mem_cons] at hy
    rcases hy with rfl | hy
    · exact hx
    · exact h2 y hy
  · rintro ⟨rfl, hne, h⟩
    cases u with
    | nil => exact absurd rfl hne
    | cons x t =>
      exact ⟨[x], t, c', rfl, ⟨rfl, x, rfl, h x (List.mem_cons_self _ _)⟩, rfl,
        fun y hy => h y (List.mem_cons_of_mem _ hy)⟩

theorem Sem_digits13 (c : Caps) (u : List Char) (c' : Caps) :
    Sem digits13 c u c' ↔ c' = c ∧ isDigits13 u = true := by
  simp only [digits13, Sem, isDigits13, Bool.and_eq_true, decide_eq_true_eq, List.all_eq_true]
  constructor
  · rintro ⟨u1, u2, cm, rfl, ⟨rfl, x, rfl, hx⟩, h⟩
    rcases h with ⟨v1, v2, cm2, rfl, ⟨rfl, y, rfl, hy⟩, h⟩ | ⟨rfl, rfl⟩
    · rcases h with ⟨rfl, z, rfl, hz⟩ | ⟨rfl, rfl⟩
      · refine ⟨rfl, ⟨by simp, by simp⟩, ?_⟩
        intro w hw; simp at hw; rcases hw with rfl | rfl | rfl <;> assumption
      · refine ⟨rfl, ⟨by simp, by simp⟩, ?_⟩
        intro w hw; simp at hw; rcases hw with rfl | rfl <;> assumption
    · refine ⟨rfl, ⟨by simp, by simp⟩, ?_⟩
      intro w hw; simp at hw; subst hw; assumption
  · rintro ⟨rfl, ⟨h1, h3⟩, h⟩
    match u, h1, h3, h with
    | [x], _, _, h =>
      exact ⟨[x], [], c', rfl, ⟨rfl, x, rfl, h x (by simp)⟩, Or.inr ⟨rfl, rfl⟩⟩
    | [x, y], _, _, h =>
      exact ⟨[x], [y], c', rfl, ⟨rfl, x, rfl, h x (by simp)⟩,
        Or.inl ⟨[y], [], c', rfl, ⟨rfl, y, rfl, h y (by simp)⟩, Or.inr ⟨rfl, rfl⟩⟩⟩
    | [x, y, z], _, _, h =>
      exact ⟨[x], [y, z], c', rfl, ⟨rfl, x, rfl, h x (by simp)⟩,
        Or.inl ⟨[y], [z], c', rfl, ⟨rfl, y, rfl, h y (by simp)⟩,
          Or.inl ⟨rfl, z, rfl, h z (by simp)⟩⟩⟩
    | _ :: _ :: _ :: _ :: _, _, h3, _ => simp at h3

theorem Sem_dottedQuad (c : Caps) (u : List Char) (c' : Caps) :
    Sem dottedQuad c u c' ↔ c' = c ∧ DottedQuad u := by
  simp only [dottedQuad, Sem_seq, Sem_lit, Sem_digits13, DottedQuad]
  constructor
  · rintro ⟨a, r1, c1, rfl, ⟨rfl, ha⟩, r2, r3, c2, rfl,
      ⟨d1, b, c3, rfl, ⟨rfl, rfl⟩, rfl, hb⟩, r4, r5, c4, rfl,
      ⟨d2, cc, c5, rfl, ⟨rfl, rfl⟩, rfl, hc⟩, d3, d, c6, rfl, ⟨rfl, rfl⟩, rfl, hd⟩
    exact ⟨rfl, a, b, cc, d, by simp, ha, hb, hc, hd⟩
  · rintro ⟨rfl, a, b, cc, d, rfl, ha, hb, hc, hd⟩
    exact ⟨a, _, c', rfl, ⟨rfl, ha⟩, '.' :: b, _, c', rfl,
      ⟨['.'], b, c', rfl, ⟨rfl, rfl⟩, rfl, hb⟩, '.' :: cc, '.' :: d, c', rfl,
      ⟨['.'], cc, c', rfl, ⟨rfl, rfl⟩, rfl, hc⟩, ['.'], d, c', rfl, ⟨rfl, rfl⟩, rfl, hd⟩

theorem append_sep_unique (a : Char) (u v u' v' : List Char)
    (hu : a ∉ u) (hu' : a ∉ u') (h : u ++ a :: v = u' ++ a :: v') : u = u' ∧ v = v' := by
  induction u generalizing u' with
  | nil =>
    cases u' with
    | nil => simpa using h
    | cons y t =>
      simp only [List.nil_append, List.cons_append, List.cons.injEq] at h
      exact absurd (by rw [h.1]; exact List.mem_cons_self _ _) hu'
  | cons x t ih =>
    cases u' with
    | nil =>
      simp only [List.nil_append, List.cons_append, List.cons.injEq] at h
      exact absurd (by rw [← h.1]; exact List.mem_cons_self _ _) hu
    | cons y t' =>
      simp only [List.cons_append, List.cons.injEq] at h
      obtain ⟨rfl, h⟩ := h
      have := ih t' (fun hm => hu (List.mem_cons_of_mem _ hm))
        (fun hm => hu' (List.mem_cons_of_mem _ hm)) h
      exact ⟨by rw [this.1], this.2⟩

theorem matchRE_iff (r : RE) (s : List Char) (c : Caps)
    (hfun : ∀ c1 c2, Sem r [] s c1 → Sem r [] s c2 → c1 = c2) :
    matchRE r s = some c ↔ Sem r [] s c :=
  ⟨matchRE_sound r s c, fun h => matchRE_of_unique r s c h (fun c' h' => hfun c' c h' h)⟩

theorem MatchString_iff (r : RE) (s : List Char) :
    MatchString r s = true ↔ ∃ c, Sem r [] s c := by
  simp only [MatchString, Option.isSome_iff_exists]
  constructor
  · rintro ⟨c, hc⟩; exact ⟨c, matchRE_sound r s c hc⟩
  · rintro ⟨c, hc⟩
    cases hm : matchRE r s with
    | none => exact absurd hc ((matchRE_eq_none r s).1 hm c)
    | some c' => exact ⟨c', rfl⟩

theorem Sem_litOnly (l s : List Char) (c : Caps) : Sem (.lit l) [] s c ↔ s = l ∧ c = [] := by
  simp only [Sem_lit]; exact and_comm

theorem Sem_reason (l s : List Char) (c : Caps) :
    Sem (.seq (.lit l) (.group "reason" (.star isDot))) [] s c ↔
      ∃ r, s = l ++ r ∧ r.all isDot = true ∧ c = [("reason", r)] := by
  simp only [Sem_seq, Sem_lit, Sem_group, Sem_star, List.all_eq_true]
  constructor
  · rintro ⟨u1, u2, cm, rfl, ⟨rfl, rfl⟩, cm2, ⟨rfl, h⟩, rfl⟩
    exact ⟨u2, rfl, h, rfl⟩
  · rintro ⟨r, rfl, h, rfl⟩
    exact ⟨l, r, [], rfl, ⟨rfl, rfl⟩, [], ⟨rfl, h⟩, rfl⟩

theorem Sem_dhpubRE (s : List Char) (c : Caps) :
    Sem dhpubRE [] s c ↔
      ∃ i x y, s = "DHPUB ".toList ++ i :: ' ' :: (x ++ ' ' :: y) ∧ isDigit03 i = true ∧
        (x ≠ [] ∧ x.all isB64 = true) ∧ (y ≠ [] ∧ y.all isB64 = true) ∧
        c = [("y", y), ("x", x), ("i", [i])] := by
  simp only [dhpubRE, Sem_seq, Sem_lit, Sem_group, Sem_chr, Sem_plus]
  constructor
  · rintro ⟨u1, r1, c1, rfl, ⟨rfl, rfl⟩, u2, r2, c2, rfl, ⟨c3, ⟨rfl, i, rfl, hi⟩, rfl⟩,
      u3, r3, c4, rfl, ⟨rfl, rfl⟩, x, r4, c5, rfl, ⟨c6, ⟨rfl, hx⟩, rfl⟩,
      u4, y, c7, rfl, ⟨rfl, rfl⟩, c8, ⟨rfl, hy⟩, rfl⟩
    exact ⟨i, x, y, by simp, hi, hx, hy, rfl⟩
  · rintro ⟨i, x, y, rfl, hi, hx, hy, rfl⟩
    exact ⟨_, _, _, rfl, ⟨rfl, rfl⟩, [i], _, _, rfl, ⟨_, ⟨rfl, i, rfl, hi⟩, rfl⟩,
      [' '], _, _, rfl, ⟨rfl, rfl⟩, x, _, _, rfl, ⟨_, ⟨rfl, hx⟩, rfl⟩,
      [' '], y, _, rfl, ⟨rfl, rfl⟩, _, ⟨rfl, hy⟩, rfl⟩

theorem Sem_tunnipRE (s : List Char) (c : Caps) :
    Sem tunnipRE [] s c ↔
      ∃ ip, s = "TUNNIP ".toList ++ ip ∧ DottedQuad ip ∧ c = [("ip", ip)] := by
  simp only [tunnipRE, Sem_seq, Sem_lit, Sem_group, Sem_dottedQuad]
  constructor
  · rintro ⟨u1, ip, c1, rfl, ⟨rfl, rfl⟩, c2, ⟨rfl, h⟩, rfl⟩
    exact ⟨ip, rfl, h, rfl⟩
  · rintro ⟨ip, rfl, h, rfl⟩
    exact ⟨_, ip, _, rfl, ⟨rfl, rfl⟩, _, ⟨rfl, h⟩, rfl⟩

theorem Sem_conninfoRE (s : List Char) (c : Caps) :
    Sem conninfoRE [] s c ↔
      ∃ ip port, s = "CONNINFO ".toList ++ (ip ++ ' ' :: port) ∧ DottedQuad ip ∧
        (port ≠ [] ∧ port.all isDigit = true) ∧ c = [("port", port), ("ip", ip)] := by
  simp only [conninfoRE, Sem_seq, Sem_lit, Sem_group, Sem_dottedQuad, Sem_plus]
  constructor
  · rintro ⟨u1, r1, c1, rfl, ⟨rfl, rfl⟩, ip, r2, c2, rfl, ⟨c3, ⟨rfl, hip⟩, rfl⟩,
      u2, port, c4, rfl, ⟨rfl, rfl⟩, c5, ⟨rfl, hp⟩, rfl⟩
    exact ⟨ip, port, by simp, hip, hp, rfl⟩
  · rintro ⟨ip, port, rfl, hip, hp, rfl⟩
    exact ⟨_, _, _, rfl, ⟨rfl, rfl⟩, ip, _, _, rfl, ⟨_, ⟨rfl, hip⟩, rfl⟩,
      [' '], port, _, rfl, ⟨rfl, rfl⟩, _, ⟨rfl, hp⟩, rfl⟩

theorem space_not_mem_of_all_isB64 (x : List Char) (h : x.all isB64 = true) : ' ' ∉ x := by
  intro hm
  have := (List.all_eq_true.1 h) ' ' hm
  revert this; decide

theorem space_not_mem_of_isDigits13 (x : List Char) (h : isDigits13 x = true) : ' ' ∉ x := by
  intro hm
  simp only [isDigits13, Bool.and_eq_true, List.all_eq_true] at h
  have := h.2 ' ' hm
  revert this; decide

theorem space_not_mem_of_DottedQuad (ip : List Char) (h : DottedQuad ip) : ' ' ∉ ip := by
  obtain ⟨a, b, c, d, rfl, ha, hb, hc, hd⟩ := h
  have ha := space_not_mem_of_isDigits13 a ha
  have hb := space_not_mem_of_isDigits13 b hb
  have hc := space_not_mem_of_isDigits13 c hc
  have hd := space_not_mem_of_isDigits13 d hd
  simp only [List.mem_append, List.mem_cons, not_or]
  exact ⟨ha, by decide, hb, by decide, hc, by decide, hd⟩

theorem matchRE_lit (l s : List Char) (c : Caps) :
    matchRE (.lit l) s = some c ↔ s = l ∧ c = [] := by
  rw [matchRE_iff, Sem_litOnly]
  intro c1 c2 h1 h2
  rw [Sem_litOnly] at h1 h2
  rw [h1.2, h2.2]

theorem matchRE_reason (l s : List Char) (c : Caps) :
    matchRE (.seq (.lit l) (.group "reason" (.star isDot))) s = some c ↔
      ∃ r, s = l ++ r ∧ r.all isDot = true ∧ c = [("reason", r)] := by
  rw [matchRE_iff, Sem_reason]
  intro c1 c2 h1 h2
  rw [Sem_reason] at h1 h2
  obtain ⟨r1, hs1, -, rfl⟩ := h1
  obtain ⟨r2, hs2, -, rfl⟩ := h2
  rw [hs1] at hs2
  rw [List.append_cancel_left hs2]

theorem matchRE_dhpubRE (s : List Char) (c : Caps) :
    matchRE dhpubRE s = some c ↔
      ∃ i x y, s = "DHPUB ".toList ++ i :: ' ' :: (x ++ ' ' :: y) ∧ isDigit03 i = true ∧
        (x ≠ [] ∧ x.all isB64 = true) ∧ (y ≠ [] ∧ y.all isB64 = true) ∧
        c = [("y", y), ("x", x), ("i", [i])] := by
  rw [matchRE_iff, Sem_dhpubRE]
  intro c1 c2 h1 h2
  rw [Sem_dhpubRE] at h1 h2
  obtain ⟨i1, x1, y1, hs1, -, hx1, -, rfl⟩ := h1
  obtain ⟨i2, x2, y2, hs2, -, hx2, -, rfl⟩ := h2
  rw [hs1] at hs2
  have h := List.append_cancel_left hs2
  simp only [List.cons.injEq, true_and] at h
  obtain ⟨rfl, h⟩ := h
  obtain ⟨rfl, rfl⟩ := append_sep_unique ' ' x1 y1 x2 y2
    (space_not_mem_of_all_isB64 x1 hx1.2) (space_not_mem_of_all_isB64 x2 hx2.2) h
  rfl

theorem matchRE_tunnipRE (s : List Char) (c : Caps) :
    matchRE tunnipRE s = some c ↔
      ∃ ip, s = "TUNNIP ".toList ++ ip ∧ DottedQuad ip ∧ c = [("ip", ip)] := by
  rw [matchRE_iff, Sem_tunnipRE]
  intro c1 c2 h1 h2
  rw [Sem_tunnipRE] at h1 h2
  obtain ⟨r1, hs1, -, rfl⟩ := h1
  obtain ⟨r2, hs2, -, rfl⟩ := h2
  rw [hs1] at hs2
  rw [List.append_cancel_left hs2]

theorem matchRE_conninfoRE (s : List Char) (c : Caps) :
    matchRE conninfoRE s = some c ↔
      ∃ ip port, s = "CONNINFO ".toList ++ (ip ++ ' ' :: port) ∧ DottedQuad ip ∧
        (port ≠ [] ∧ port.all isDigit = true) ∧ c = [("port", port), ("ip", ip)] := by
  rw [matchRE_iff, Sem_conninfoRE]
  intro c1 c2 h1 h2
  rw [Sem_conninfoRE] at h1 h2
  obtain ⟨ip1, p1, hs1, hq1, -, rfl⟩ := h1
  obtain ⟨ip2, p2, hs2, hq2, -, rfl⟩ := h2
  rw [hs1] at hs2
  obtain ⟨rfl, rfl⟩ := append_sep_unique ' ' ip1 p1 ip2 p2
    (space_not_mem_of_DottedQuad ip1 hq1) (space_not_mem_of_DottedQuad ip2 hq2)
    (List.append_cancel_left hs2)
  rfl


theorem ReplaceAllString_of_match (r : RE) (s : List Char) (c : Caps) (n : String)
    (h : matchRE r s = some c) : ReplaceAllString r s n = (c.lookup n).getD [] := by
  simp [ReplaceAllString, h]

theorem MatchString_of_match (r : RE) (s : List Char) (c : Caps)
    (h : matchRE r s = some c) : MatchString r s = true := by
  simp [MatchString, h]

theorem lit_INIT : "INIT".toList = ['I', 'N', 'I', 'T'] := rfl
theorem lit_ACCEPT : "ACCEPT".toList = ['A', 'C', 'C', 'E', 'P', 'T'] := rfl
theorem lit_DENY : "DENY ".toList = ['D', 'E', 'N', 'Y', ' '] := rfl
theorem lit_RESET : "RESET ".toList = ['R', 'E', 'S', 'E', 'T', ' '] := rfl
theorem lit_DHPUB : "DHPUB ".toList = ['D', 'H', 'P', 'U', 'B', ' '] := rfl
theorem lit_TUNNIP : "TUNNIP ".toList = ['T', 'U', 'N', 'N', 'I', 'P', ' '] := rfl
theorem lit_CONNINFO :
    "CONNINFO ".toList = ['C', 'O', 'N', 'N', 'I', 'N', 'F', 'O', ' '] := rfl

/-- The first character of a line decides which pattern can match, except for
`DENY ` and `DHPUB `, told apart by the second. -/
theorem take2_of_match (s : List Char) :
    (MatchString initRE s = true → s.take 2 = ['I', 'N']) ∧
    (MatchString acceptRE s = true → s.take 2 = ['A', 'C']) ∧
    (MatchString denyRE s = true → s.take 2 = ['D', 'E']) ∧
    (MatchString resetRE s = true → s.take 2 = ['R', 'E']) ∧
    (MatchString dhpubRE s = true → s.take 2 = ['D', 'H']) ∧
    (MatchString tunnipRE s = true → s.take 2 = ['T', 'U']) ∧
    (MatchString conninfoRE s = true → s.take 2 = ['C', 'O']) := by
  refine ⟨?_, ?_, ?_, ?_, ?_, ?_, ?_⟩ <;> intro h <;>
    simp only [MatchString, Option.isSome_iff_exists] at h <;> obtain ⟨c, hc⟩ := h
  · rw [initRE, matchRE_lit] at hc; rw [hc.1]; rfl
  · rw [acceptRE, matchRE_lit] at hc; rw [hc.1]; rfl
  · rw [denyRE, matchRE_reason] at hc; obtain ⟨r, rfl, -⟩ := hc; rfl
  · rw [resetRE, matchRE_reason] at hc; obtain ⟨r, rfl, -⟩ := hc; rfl
  · rw [matchRE_dhpubRE] at hc; obtain ⟨i, x, y, rfl, -⟩ := hc; rfl
  · rw [matchRE_tunnipRE] at hc; obtain ⟨ip, rfl, -⟩ := hc; rfl
  · rw [matchRE_conninfoRE] at hc; obtain ⟨ip, p, rfl, -⟩ := hc; rfl

theorem not_match (r : RE) (s p q : List Char) (hq : s.take 2 = q) (hne : q ≠ p)
    (h : MatchString r s = true → s.take 2 = p) : MatchString r s = false := by
  rw [← Bool.not_eq_true]; intro hh
  exact hne (hq.symm.trans (h hh))

theorem parse_init : ParseMessage "INIT".toList = .ok { Typ := Init } := by
  have h : MatchString initRE "INIT".toList = true :=
    MatchString_of_match _ _ [] ((matchRE_lit _ _ _).2 ⟨rfl, rfl⟩)
  simp only [ParseMessage, h, if_true]

theorem parse_accept : ParseMessage "ACCEPT".toList = .ok { Typ := Accept } := by
  have h : MatchString acceptRE "ACCEPT".toList = true :=
    MatchString_of_match _ _ [] ((matchRE_lit _ _ _).2 ⟨rfl, rfl⟩)
  have h1 := not_match initRE _ _ _ (rfl : "ACCEPT".toList.take 2 = ['A', 'C']) (by decide)
    (take2_of_match _).1
  simp only [ParseMessage, h, h1, if_true, Bool.false_eq_true, if_false]

theorem parse_deny (r : List Char) (hr : r.all isDot = true) :
    ParseMessage ("DENY ".toList ++ r) = .ok { Typ := Deny, Data := [("reason", r)] } := by
  have hm : matchRE denyRE ("DENY ".toList ++ r) = some [("reason", r)] :=
    (matchRE_reason _ _ _).2 ⟨r, rfl, hr, rfl⟩
  have h := MatchString_of_match _ _ _ hm
  have hv := ReplaceAllString_of_match _ _ _ "reason" hm
  have ht : ("DENY ".toList ++ r).take 2 = ['D', 'E'] := rfl
  have h1 := not_match initRE _ _ _ ht (by decide) (take2_of_match _).1
  have h2 := not_match acceptRE _ _ _ ht (by decide) (take2_of_match _).2.1
  simp only [ParseMessage, h, h1, h2, hv, if_true, Bool.false_eq_true, if_false]
  rfl

theorem parse_reset (r : List Char) (hr : r.all isDot = true) :
    ParseMessage ("RESET ".toList ++ r) = .ok { Typ := Reset, Data := [("reason", r)] } := by
  have hm : matchRE resetRE ("RESET ".toList ++ r) = some [("reason", r)] :=
    (matchRE_reason _ _ _).2 ⟨r, rfl, hr, rfl⟩
  have h := MatchString_of_match _ _ _ hm
  have hv := ReplaceAllString_of_match _ _ _ "reason" hm
  have ht : ("RESET ".toList ++ r).take 2 = ['R', 'E'] := rfl
  have h1 := not_match initRE _ _ _ ht (by decide) (take2_of_match _).1
  have h2 := not_match acceptRE _ _ _ ht (by decide) (take2_of_match _).2.1
  have h3 := not_match denyRE _ _ _ ht (by decide) (take2_of_match _).2.2.1
  simp only [ParseMessage, h, h1, h2, h3, hv, if_true, Bool.false_eq_true, if_false]
  rfl

theorem parse_dhpub (i : Char) (x y : List Char) (hi : isDigit03 i = true)
    (hx : x ≠ [] ∧ x.all isB64 = true) (hy : y ≠ [] ∧ y.all isB64 = true) :
    ParseMessage ("DHPUB ".toList ++ i :: ' ' :: (x ++ ' ' :: y)) =
      .ok { Typ := Dhpub, Data := [("i", [i]), ("y", y), ("x", x)] } := by
  have hm : matchRE dhpubRE ("DHPUB ".toList ++ i :: ' ' :: (x ++ ' ' :: y)) =
      some [("y", y), ("x", x), ("i", [i])] :=
    (matchRE_dhpubRE _ _).2 ⟨i, x, y, rfl, hi, hx, hy, rfl⟩
  have h := MatchString_of_match _ _ _ hm
  have hvx := ReplaceAllString_of_match _ _ _ "x" hm
  have hvy := ReplaceAllString_of_match _ _ _ "y" hm
  have hvi := ReplaceAllString_of_match _ _ _ "i" hm
  have ht : ("DHPUB ".toList ++ i :: ' ' :: (x ++ ' ' :: y)).take 2 = ['D', 'H'] := rfl
  have h1 := not_match initRE _ _ _ ht (by decide) (take2_of_match _).1
  have h2 := not_match acceptRE _ _ _ ht (by decide) (take2_of_match _).2.1
  have h3 := not_match denyRE _ _ _ ht (by decide) (take2_of_match _).2.2.1
  have h4 := not_match resetRE _ _ _ ht (by decide) (take2_of_match _).2.2.2.1
  simp only [ParseMessage, h, h1, h2, h3, h4, hvx, hvy, hvi, if_true, Bool.false_eq_true,
    if_false]
  rfl

theorem parse_tunnip (ip : List Char) (hip : DottedQuad ip) :
    ParseMessage ("TUNNIP ".toList ++ ip) = .ok { Typ := Tunnip, Data := [("ip", ip)] } := by
  have hm : matchRE tunnipRE ("TUNNIP ".toList ++ ip) = some [("ip", ip)] :=
    (matchRE_tunnipRE _ _).2 ⟨ip, rfl, hip, rfl⟩
  have h := MatchString_of_match _ _ _ hm
  have hv := ReplaceAllString_of_match _ _ _ "ip" hm
  have ht : ("TUNNIP ".toList ++ ip).take 2 = ['T', 'U'] := rfl
  have h1 := not_match initRE _ _ _ ht (by decide) (take2_of_match _).1
  have h2 := not_match acceptRE _ _ _ ht (by decide) (take2_of_match _).2.1
  have h3 := not_match denyRE _ _ _ ht (by decide) (take2_of_match _).2.2.1
  have h4 := not_match resetRE _ _ _ ht (by decide) (take2_of_match _).2.2.2.1
  have h5 := not_match dhpubRE _ _ _ ht (by decide) (take2_of_match _).2.2.2.2.1
  simp only [ParseMessage, h, h1, h2, h3, h4, h5, hv, if_true, Bool.false_eq_true, if_false]
  rfl

theorem parse_conninfo (ip port : List Char) (hip : DottedQuad ip)
    (hp : port ≠ [] ∧ port.all isDigit = true) :
    ParseMessage ("CONNINFO ".toList ++ (ip ++ ' ' :: port)) =
      .ok { Typ := Conninfo, Data := [("port", port), ("ip", ip)] } := by
  have hm : matchRE conninfoRE ("CONNINFO ".toList ++ (ip ++ ' ' :: port)) =
      some [("port", port), ("ip", ip)] :=
    (matchRE_conninfoRE _ _).2 ⟨ip, port, rfl, hip, hp, rfl⟩
  have h := MatchString_of_match _ _ _ hm
  have hvi := ReplaceAllString_of_match _ _ _ "ip" hm
  have hvp := ReplaceAllString_of_match _ _ _ "port" hm
  have ht : ("CONNINFO ".toList ++ (ip ++ ' ' :: port)).take 2 = ['C', 'O'] := rfl
  have h1 := not_match initRE _ _ _ ht (by decide) (take2_of_match _).1
  have h2 := not_match acceptRE _ _ _ ht (by decide) (take2_of_match _).2.1
  have h3 := not_match denyRE _ _ _ ht (by decide) (take2_of_match _).2.2.1
  have h4 := not_match resetRE _ _ _ ht (by decide) (take2_of_match _).2.2.2.1
  have h5 := not_match dhpubRE _ _ _ ht (by decide) (take2_of_match _).2.2.2.2.1
  have h6 := not_match tunnipRE _ _ _ ht (by decide) (take2_of_match _).2.2.2.2.2.1
  simp only [ParseMessage, h, h1, h2, h3, h4, h5, h6, hvi, hvp, if_true, Bool.false_eq_true,
    if_false]
  rfl

theorem parse_error_of_no_match (line : List Char)
    (h1 : MatchString initRE line = false) (h2 : MatchString acceptRE line = false)
    (h3 : MatchString denyRE line = false) (h4 : MatchString resetRE line = false)
    (h5 : MatchString dhpubRE line = false) (h6 : MatchString tunnipRE line = false)
    (h7 : MatchString conninfoRE line = false) :
    ParseMessage line = .error ⟨"Failed to parse message: ".toList ++ line⟩ := by
  simp only [ParseMessage, h1, h2, h3, h4, h5, h6, h7, Bool.false_eq_true, if_false]

theorem match_cases (line : List Char) :
    (MatchString initRE line = false ∧ MatchString acceptRE line = false ∧
      MatchString denyRE line = false ∧ MatchString resetRE line = false ∧
      MatchString dhpubRE line = false ∧ MatchString tunnipRE line = false ∧
      MatchString conninfoRE line = false) ∨
    ∃ t d, ValidFields t d ∧ line = Message.String { Typ := t, Data := d } ∧
      ParseMessage line = .ok { Typ := t, Data := d } := by
  by_cases h1 : MatchString initRE line = true
  · right
    obtain ⟨c, hc⟩ := Option.isSome_iff_exists.1 h1
    obtain ⟨rfl, -⟩ := (matchRE_lit _ _ _).1 hc
    exact ⟨Init, [], Or.inl ⟨rfl, rfl⟩, rfl, parse_init⟩
  by_cases h2 : MatchString acceptRE line = true
  · right
    obtain ⟨c, hc⟩ := Option.isSome_iff_exists.1 h2
    obtain ⟨rfl, -⟩ := (matchRE_lit _ _ _).1 hc
    exact ⟨Accept, [], Or.inr (Or.inl ⟨rfl, rfl⟩), rfl, parse_accept⟩
  by_cases h3 : MatchString denyRE line = true
  · right
    obtain ⟨c, hc⟩ := Option.isSome_iff_exists.1 h3
    obtain ⟨r, rfl, hr, -⟩ := (matchRE_reason _ _ _).1 hc
    exact ⟨Deny, _, Or.inr (Or.inr (Or.inl ⟨rfl, r, hr, rfl⟩)), rfl, parse_deny r hr⟩
  by_cases h4 : MatchString resetRE line = true
  · right
    obtain ⟨c, hc⟩ := Option.isSome_iff_exists.1 h4
    obtain ⟨r, rfl, hr, -⟩ := (matchRE_reason _ _ _).1 hc
    exact ⟨Reset, _, Or.inr (Or.inr (Or.inr (Or.inl ⟨rfl, r, hr, rfl⟩))), rfl,
      parse_reset r hr⟩
  by_cases h5 : MatchString dhpubRE line = true
  · right
    obtain ⟨c, hc⟩ := Option.isSome_iff_exists.1 h5
    obtain ⟨i, x, y, rfl, hi, hx, hy, -⟩ := (matchRE_dhpubRE _ _).1 hc
    refine ⟨Dhpub, _, Or.inr (Or.inr (Or.inr (Or.inr (Or.inl
      ⟨rfl, i, x, y, hi, hx, hy, rfl⟩)))), ?_, parse_dhpub i x y hi hx hy⟩
    simp [Message.String, Dhpub, Init, Deny, Accept, Data.get, List.lookup]
  by_cases h6 : MatchString tunnipRE line = true
  · right
    obtain ⟨c, hc⟩ := Option.isSome_iff_exists.1 h6
    obtain ⟨ip, rfl, hip, -⟩ := (matchRE_tunnipRE _ _).1 hc
    exact ⟨Tunnip, _, Or.inr (Or.inr (Or.inr (Or.inr (Or.inr (Or.inl
      ⟨rfl, ip, hip, rfl⟩))))), rfl, parse_tunnip ip hip⟩
  by_cases h7 : MatchString conninfoRE line = true
  · right
    obtain ⟨c, hc⟩ := Option.isSome_iff_exists.1 h7
    obtain ⟨ip, port, rfl, hip, hp, -⟩ := (matchRE_conninfoRE _ _).1 hc
    refine ⟨Conninfo, _, Or.inr (Or.inr (Or.inr (Or.inr (Or.inr (Or.inr
      ⟨rfl, ip, port, hip, hp, rfl⟩))))), ?_, parse_conninfo ip port hip hp⟩
    simp [Message.String, Conninfo, Dhpub, Tunnip, Init, Deny, Accept, Data.get, List.lookup]
  · left
    simp only [Bool.not_eq_true] at h1 h2 h3 h4 h5 h6 h7
    exact ⟨h1, h2, h3, h4, h5, h6, h7⟩

/-- What `ParseMessage` accepts: exactly the lines `String` prints for a message
with empty `To` and `From` and the valid fields of its type, and it returns
that message. -/
theorem ParseMessage_ok_iff (line : List Char) (m : Message) :
    ParseMessage line = .ok m ↔
      m.To = "" ∧ m.From = "" ∧ ValidFields m.Typ m.Data ∧ m.String = line := by
  constructor
  · intro h
    rcases match_cases line with ⟨h1, h2, h3, h4, h5, h6, h7⟩ | ⟨t, d, hv, hl, hp⟩
    · rw [parse_error_of_no_match line h1 h2 h3 h4 h5 h6 h7] at h
      cases h
    · rw [hp] at h
      injection h with h
      subst h
      exact ⟨rfl, rfl, hv, hl.symm⟩
  · rintro ⟨hto, hfrom, hv, hs⟩
    obtain ⟨mto, mfrom, t, d⟩ := m
    simp only at hto hfrom hv hs
    subst hto hfrom hs
    rcases hv with ⟨rfl, rfl⟩ | ⟨rfl, rfl⟩ | ⟨rfl, r, hr, rfl⟩ | ⟨rfl, r, hr, rfl⟩ |
      ⟨rfl, i, x, y, hi, hx, hy, rfl⟩ | ⟨rfl, ip, hip, rfl⟩ | ⟨rfl, ip, port, hip, hp, rfl⟩
    · exact parse_init
    · exact parse_accept
    · exact parse_deny r hr
    · exact parse_reset r hr
    · have := parse_dhpub i x y hi hx hy
      simpa [Message.String, Dhpub, Init, Deny, Accept, Data.get, List.lookup] using this
    · exact parse_tunnip ip hip
    · have := parse_conninfo ip port hip hp
      simpa [Message.String, Conninfo, Dhpub, Tunnip, Init, Deny, Accept, Data.get,
        List.lookup] using this

theorem ParseMessage_error_iff (line : List Char) :
    (∃ e, ParseMessage line = .error e) ↔
      ¬ ∃ t d, ValidFields t d ∧ line = Message.String { Typ := t, Data := d } := by
  constructor
  · rintro ⟨e, he⟩ ⟨t, d, hv, hl⟩
    have := (ParseMessage_ok_iff line { Typ := t, Data := d }).2 ⟨rfl, rfl, hv, hl.symm⟩
    rw [this] at he
    cases he
  · intro h
    rcases match_cases line with ⟨h1, h2, h3, h4, h5, h6, h7⟩ | ⟨t, d, hv, hl, -⟩
    · exact ⟨_, parse_error_of_no_match line h1 h2 h3 h4 h5 h6 h7⟩
    · exact absurd ⟨t, d, hv, hl⟩ h

/-! ## Claims about the codec -/

theorem String_congr (m1 m2 : Message) (ht : m1.Typ = m2.Typ)
    (hd : SameMap m1.Data m2.Data) : m1.String = m2.String := by
  simp only [Message.String, Data.get, ht, hd _]

/-- C1 as stated fails: the `Init` message that `InitState` sends to peer `bob`
is valid, its line parses, but the parsed message has an empty `To`, so no
parse result agrees with it on Type, To, From and Data. -/
theorem C1_roundtrip_loses_To :
    Valid { To := "bob", Typ := Init } ∧
    ¬ ∃ m', ParseMessage (Message.String { To := "bob", Typ := Init }) = .ok m' ∧
      m'.Typ = Init ∧ m'.To = "bob" ∧ m'.From = "" ∧ SameMap m'.Data [] := by
  refine ⟨⟨[], Or.inl ⟨rfl, rfl⟩, fun _ => rfl⟩, ?_⟩
  rintro ⟨m', hp, -, hto, -⟩
  have h := ((ParseMessage_ok_iff _ _).1 hp).1
  rw [h] at hto
  exact absurd hto (by decide)

/-- C1 (amended): for every valid message `m` of the seven wire types,
`ParseMessage (m.String)` succeeds and returns a message with the same Type and
the same Data map as `m`, and with empty `To` and `From`. -/
theorem C1_roundtrip (m : Message) (h : Valid m) :
    ∃ m', ParseMessage m.String = .ok m' ∧ m'.Typ = m.Typ ∧ SameMap m'.Data m.Data ∧
      m'.To = "" ∧ m'.From = "" := by
  obtain ⟨d, hv, hd⟩ := h
  refine ⟨{ Typ := m.Typ, Data := d }, ?_, rfl, fun k => (hd k).symm, rfl, rfl⟩
  rw [String_congr m { Typ := m.Typ, Data := d } rfl hd]
  exact (ParseMessage_ok_iff _ _).2 ⟨rfl, rfl, hv, rfl⟩

theorem C1_roundtrip_witness :
    Valid exDhpub ∧
    ∃ m', ParseMessage exDhpub.String = .ok m' ∧ m'.Typ = exDhpub.Typ ∧
      SameMap m'.Data exDhpub.Data ∧ m'.To = "" ∧ m'.From = "" :=
  have hv : Valid exDhpub :=
    ⟨_, Or.inr (Or.inr (Or.inr (Or.inr (Or.inl ⟨rfl, '2', "QUFB".toList, "QkI=".toList,
      by decide, by decide, by decide, rfl⟩)))), fun _ => rfl⟩
  ⟨hv, C1_roundtrip exDhpub hv⟩

/-- C2: for every line on which `ParseMessage` succeeds, `String` of the returned
message is that same line. -/
theorem C2_parse_then_String (line : List Char) (m : Message)
    (h : ParseMessage line = .ok m) : m.String = line :=
  ((ParseMessage_ok_iff line m).1 h).2.2.2

theorem C2_parse_then_String_witness :
    ParseMessage "CONNINFO 1.2.3.4 5000".toList = .ok exConninfo ∧
    exConninfo.String = "CONNINFO 1.2.3.4 5000".toList :=
  have hp : ParseMessage "CONNINFO 1.2.3.4 5000".toList = .ok exConninfo := by rfl
  ⟨hp, C2_parse_then_String _ _ hp⟩

theorem String_init : Message.String { Typ := Init, Data := [] } = "INIT".toList := rfl

theorem String_accept : Message.String { Typ := Accept, Data := [] } = "ACCEPT".toList := rfl

theorem String_deny (r : List Char) :
    Message.String { Typ := Deny, Data := [("reason", r)] } = "DENY ".toList ++ r := rfl

theorem String_reset (r : List Char) :
    Message.String { Typ := Reset, Data := [("reason", r)] } = "RESET ".toList ++ r := rfl

theorem String_dhpub (i : Char) (x y : List Char) :
    Message.String { Typ := Dhpub, Data := [("i", [i]), ("y", y), ("x", x)] } =
      "DHPUB ".toList ++ i :: ' ' :: (x ++ ' ' :: y) := by
  simp [Message.String, Dhpub, Init, Deny, Accept, Data.get, List.lookup]

theorem String_tunnip (ip : List Char) :
    Message.String { Typ := Tunnip, Data := [("ip", ip)] } = "TUNNIP ".toList ++ ip := rfl

theorem String_conninfo (ip port : List Char) :
    Message.String { Typ := Conninfo, Data := [("port", port), ("ip", ip)] } =
      "CONNINFO ".toList ++ (ip ++ ' ' :: port) := by
  simp [Message.String, Conninfo, Dhpub, Tunnip, Init, Deny, Accept, Data.get, List.lookup]

/-- The lines of the seven grammars, spelled out. -/
theorem InGrammar_iff (line : List Char) :
    InGrammar line ↔
      line = "INIT".toList ∨ line = "ACCEPT".toList ∨
      (∃ r, r.all isDot = true ∧ line = "DENY ".toList ++ r) ∨
      (∃ r, r.all isDot = true ∧ line = "RESET ".toList ++ r) ∨
      (∃ i x y, isDigit03 i = true ∧ (x ≠ [] ∧ x.all isB64 = true) ∧
        (y ≠ [] ∧ y.all isB64 = true) ∧
        line = "DHPUB ".toList ++ i :: ' ' :: (x ++ ' ' :: y)) ∨
      (∃ ip, DottedQuad ip ∧ line = "TUNNIP ".toList ++ ip) ∨
      (∃ ip port, DottedQuad ip ∧ (port ≠ [] ∧ port.all isDigit = true) ∧
        line = "CONNINFO ".toList ++ (ip ++ ' ' :: port)) := by
  constructor
  · rintro ⟨t, d, hv, rfl⟩
    rcases hv with ⟨rfl, rfl⟩ | ⟨rfl, rfl⟩ | ⟨rfl, r, hr, rfl⟩ | ⟨rfl, r, hr, rfl⟩ |
      ⟨rfl, i, x, y, hi, hx, hy, rfl⟩ | ⟨rfl, ip, hip, rfl⟩ | ⟨rfl, ip, port, hip, hp, rfl⟩
    · exact Or.inl String_init
    · exact Or.inr (Or.inl String_accept)
    · exact Or.inr (Or.inr (Or.inl ⟨r, hr, String_deny r⟩))
    · exact Or.inr (Or.inr (Or.inr (Or.inl ⟨r, hr, String_reset r⟩)))
    · exact Or.inr (Or.inr (Or.inr (Or.inr (Or.inl ⟨i, x, y, hi, hx, hy, String_dhpub i x y⟩))))
    · exact Or.inr (Or.inr (Or.inr (Or.inr (Or.inr (Or.inl ⟨ip, hip, String_tunnip ip⟩)))))
    · exact Or.inr (Or.inr (Or.inr (Or.inr (Or.inr (Or.inr
        ⟨ip, port, hip, hp, String_conninfo ip port⟩)))))
  · rintro (rfl | rfl | ⟨r, hr, rfl⟩ | ⟨r, hr, rfl⟩ | ⟨i, x, y, hi, hx, hy, rfl⟩ |
      ⟨ip, hip, rfl⟩ | ⟨ip, port, hip, hp, rfl⟩)
    · exact ⟨Init, [], Or.inl ⟨rfl, rfl⟩, String_init.symm⟩
    · exact ⟨Accept, [], Or.inr (Or.inl ⟨rfl, rfl⟩), String_accept.symm⟩
    · exact ⟨Deny, _, Or.inr (Or.inr (Or.inl ⟨rfl, r, hr, rfl⟩)), (String_deny r).symm⟩
    · exact ⟨Reset, _, Or.inr (Or.inr (Or.inr (Or.inl ⟨rfl, r, hr, rfl⟩))),
        (String_reset r).symm⟩
    · exact ⟨Dhpub, _, Or.inr (Or.inr (Or.inr (Or.inr (Or.inl
        ⟨rfl, i, x, y, hi, hx, hy, rfl⟩)))), (String_dhpub i x y).symm⟩
    · exact ⟨Tunnip, _, Or.inr (Or.inr (Or.inr (Or.inr (Or.inr (Or.inl
        ⟨rfl, ip, hip, rfl⟩))))), (String_tunnip ip).symm⟩
    · exact ⟨Conninfo, _, Or.inr (Or.inr (Or.inr (Or.inr (Or.inr (Or.inr
        ⟨rfl, ip, port, hip, hp, rfl⟩))))), (String_conninfo ip port).symm⟩

theorem reject_lead_INIT (c : Char) : ¬ InGrammar (c :: "INIT".toList) := by
  rw [InGrammar_iff]
  simp [lit_INIT, lit_ACCEPT, lit_DENY, lit_RESET, lit_DHPUB, lit_TUNNIP, lit_CONNINFO]

theorem reject_lead_ACCEPT (c : Char) : ¬ InGrammar (c :: "ACCEPT".toList) := by
  rw [InGrammar_iff]
  simp [lit_INIT, lit_ACCEPT, lit_DENY, lit_RESET, lit_DHPUB, lit_TUNNIP, lit_CONNINFO]

theorem dot_not_mem_of_isDigits13 (x : List Char) (h : isDigits13 x = true) : '.' ∉ x := by
  intro hm
  simp only [isDigits13, Bool.and_eq_true, List.all_eq_true] at h
  have := h.2 '.' hm
  revert this; decide

theorem DottedQuad_append (ip t : List Char) (c : Char) (h : DottedQuad ip)
    (h' : DottedQuad (ip ++ c :: t)) : isDigit c = true := by
  obtain ⟨a, b, cc, d, rfl, ha, hb, hc, -⟩ := h
  obtain ⟨a', b', cc', d', he, ha', hb', hc', hd'⟩ := h'
  simp only [List.append_assoc, List.cons_append] at he
  obtain ⟨-, he⟩ := append_sep_unique '.' _ _ _ _ (dot_not_mem_of_isDigits13 a ha)
    (dot_not_mem_of_isDigits13 a' ha') he
  obtain ⟨-, he⟩ := append_sep_unique '.' _ _ _ _ (dot_not_mem_of_isDigits13 b hb)
    (dot_not_mem_of_isDigits13 b' hb') he
  obtain ⟨-, he⟩ := append_sep_unique '.' _ _ _ _ (dot_not_mem_of_isDigits13 cc hc)
    (dot_not_mem_of_isDigits13 cc' hc') he
  simp only [isDigits13, Bool.and_eq_true, List.all_eq_true] at hd'
  exact hd'.2 c (by rw [← he]; simp)

theorem reject_DHPUB_index (i : Char) (rest : List Char) (hi : isDigit03 i = false) :
    ¬ InGrammar ("DHPUB ".toList ++ i :: rest) := by
  rw [InGrammar_iff]
  rintro (h | h | ⟨r, -, h⟩ | ⟨r, -, h⟩ | ⟨i', x, y, hi', -, -, h⟩ | ⟨ip, -, h⟩ | ⟨ip, p, -, -, h⟩)
  · simp [lit_INIT, lit_DHPUB] at h
  · simp [lit_ACCEPT, lit_DHPUB] at h
  · simp [lit_DENY, lit_DHPUB] at h
  · simp [lit_RESET, lit_DHPUB] at h
  · have h2 := List.append_cancel_left h
    simp only [List.cons.injEq] at h2
    rw [h2.1, hi'] at hi
    cases hi
  · simp [lit_TUNNIP, lit_DHPUB] at h
  · simp [lit_CONNINFO, lit_DHPUB] at h

theorem reject_DHPUB_long_index (i j : Char) (rest : List Char) (hj : j ≠ ' ') :
    ¬ InGrammar ("DHPUB ".toList ++ i :: j :: rest) := by
  rw [InGrammar_iff]
  rintro (h | h | ⟨r, -, h⟩ | ⟨r, -, h⟩ | ⟨i', x, y, hi', -, -, h⟩ | ⟨ip, -, h⟩ | ⟨ip, p, -, -, h⟩)
  · simp [lit_INIT, lit_DHPUB] at h
  · simp [lit_ACCEPT, lit_DHPUB] at h
  · simp [lit_DENY, lit_DHPUB] at h
  · simp [lit_RESET, lit_DHPUB] at h
  · have h2 := List.append_cancel_left h
    simp only [List.cons.injEq] at h2
    exact hj h2.2.1
  · simp [lit_TUNNIP, lit_DHPUB] at h
  · simp [lit_CONNINFO, lit_DHPUB] at h

theorem reject_DHPUB_one_field (i : Char) (x : List Char) (hx : ' ' ∉ x) :
    ¬ InGrammar ("DHPUB ".toList ++ i :: ' ' :: x) ∧ ¬ InGrammar ("DHPUB ".toList ++ [i]) := by
  constructor <;> rw [InGrammar_iff] <;>
    rintro (h | h | ⟨r, -, h⟩ | ⟨r, -, h⟩ | ⟨i', x', y', -, -, -, h⟩ | ⟨ip, -, h⟩ |
      ⟨ip, p, -, -, h⟩)
  · simp [lit_INIT, lit_DHPUB] at h
  · simp [lit_ACCEPT, lit_DHPUB] at h
  · simp [lit_DENY, lit_DHPUB] at h
  · simp [lit_RESET, lit_DHPUB] at h
  · have h2 := List.append_cancel_left h
    simp only [List.cons.injEq, true_and] at h2
    exact hx (by rw [h2.2]; simp)
  · simp [lit_TUNNIP, lit_DHPUB] at h
  · simp [lit_CONNINFO, lit_DHPUB] at h
  · simp [lit_INIT, lit_DHPUB] at h
  · simp [lit_ACCEPT, lit_DHPUB] at h
  · simp [lit_DENY, lit_DHPUB] at h
  · simp [lit_RESET, lit_DHPUB] at h
  · have h2 := List.append_cancel_left h
    simp at h2
  · simp [lit_TUNNIP, lit_DHPUB] at h
  · simp [lit_CONNINFO, lit_DHPUB] at h

theorem reject_DHPUB_empty_field (i : Char) (x y : List Char) (hx : ' ' ∉ x)
    (hxy : x = [] ∨ y = []) :
    ¬ InGrammar ("DHPUB ".toList ++ i :: ' ' :: (x ++ ' ' :: y)) := by
  rw [InGrammar_iff]
  rintro (h | h | ⟨r, -, h⟩ | ⟨r, -, h⟩ | ⟨i', x', y', -, hx', hy', h⟩ | ⟨ip, -, h⟩ |
    ⟨ip, p, -, -, h⟩)
  · simp [lit_INIT, lit_DHPUB] at h
  · simp [lit_ACCEPT, lit_DHPUB] at h
  · simp [lit_DENY, lit_DHPUB] at h
  · simp [lit_RESET, lit_DHPUB] at h
  · have h2 := List.append_cancel_left h
    simp only [List.cons.injEq, true_and] at h2
    obtain ⟨rfl, rfl⟩ := append_sep_unique ' ' x y x' y' hx
      (space_not_mem_of_all_isB64 x' hx'.2) h2.2
    rcases hxy with h0 | h0
    · exact hx'.1 h0
    · exact hy'.1 h0
  · simp [lit_TUNNIP, lit_DHPUB] at h
  · simp [lit_CONNINFO, lit_DHPUB] at h

theorem reject_TUNNIP_trailing (ip t : List Char) (c : Char) (hip : DottedQuad ip)
    (hc : isDigit c = false) : ¬ InGrammar ("TUNNIP ".toList ++ (ip ++ c :: t)) := by
  rw [InGrammar_iff]
  rintro (h | h | ⟨r, -, h⟩ | ⟨r, -, h⟩ | ⟨i', x', y', -, -, -, h⟩ | ⟨ip', hip', h⟩ |
    ⟨ip', p, -, -, h⟩)
  · simp [lit_INIT, lit_TUNNIP] at h
  · simp [lit_ACCEPT, lit_TUNNIP] at h
  · simp [lit_DENY, lit_TUNNIP] at h
  · simp [lit_RESET, lit_TUNNIP] at h
  · simp [lit_DHPUB, lit_TUNNIP] at h
  · have h2 := List.append_cancel_left h
    rw [← h2] at hip'
    rw [DottedQuad_append ip t c hip hip'] at hc
    cases hc
  · simp [lit_CONNINFO, lit_TUNNIP] at h

theorem reject_CONNINFO_port (ip port : List Char) (hip : DottedQuad ip)
    (hp : port = [] ∨ port.all isDigit = false) :
    ¬ InGrammar ("CONNINFO ".toList ++ (ip ++ ' ' :: port)) ∧
    ¬ InGrammar ("CONNINFO ".toList ++ ip) := by
  constructor <;> rw [InGrammar_iff] <;>
    rintro (h | h | ⟨r, -, h⟩ | ⟨r, -, h⟩ | ⟨i', x', y', -, -, -, h⟩ | ⟨ip', -, h⟩ |
      ⟨ip', p, hip', hp', h⟩)
  · simp [lit_INIT, lit_CONNINFO] at h
  · simp [lit_ACCEPT, lit_CONNINFO] at h
  · simp [lit_DENY, lit_CONNINFO] at h
  · simp [lit_RESET, lit_CONNINFO] at h
  · simp [lit_DHPUB, lit_CONNINFO] at h
  · simp [lit_TUNNIP, lit_CONNINFO] at h
  · obtain ⟨rfl, rfl⟩ := append_sep_unique ' ' ip port ip' p
      (space_not_mem_of_DottedQuad ip hip) (space_not_mem_of_DottedQuad ip' hip')
      (List.append_cancel_left h)
    rcases hp with h0 | h0
    · exact hp'.1 h0
    · rw [hp'.2] at h0; cases h0
  · simp [lit_INIT, lit_CONNINFO] at h
  · simp [lit_ACCEPT, lit_CONNINFO] at h
  · simp [lit_DENY, lit_CONNINFO] at h
  · simp [lit_RESET, lit_CONNINFO] at h
  · simp [lit_DHPUB, lit_CONNINFO] at h
  · simp [lit_TUNNIP, lit_CONNINFO] at h
  · have h2 := List.append_cancel_left h
    exact space_not_mem_of_DottedQuad ip hip (by rw [h2]; simp)

theorem InGrammar_TUNNIP (rest : List Char) :
    InGrammar ("TUNNIP ".toList ++ rest) ↔ DottedQuad rest := by
  rw [InGrammar_iff]
  constructor
  · rintro (h | h | ⟨r, -, h⟩ | ⟨r, -, h⟩ | ⟨i', x', y', -, -, -, h⟩ | ⟨ip', hip', h⟩ |
      ⟨ip', p, -, -, h⟩)
    · simp [lit_INIT, lit_TUNNIP] at h
    · simp [lit_ACCEPT, lit_TUNNIP] at h
    · simp [lit_DENY, lit_TUNNIP] at h
    · simp [lit_RESET, lit_TUNNIP] at h
    · simp [lit_DHPUB, lit_TUNNIP] at h
    · rw [List.append_cancel_left h]; exact hip'
    · simp [lit_CONNINFO, lit_TUNNIP] at h
  · intro h
    exact Or.inr (Or.inr (Or.inr (Or.inr (Or.inr (Or.inl ⟨rest, h, rfl⟩)))))

theorem InGrammar_CONNINFO (rest : List Char) :
    InGrammar ("CONNINFO ".toList ++ rest) ↔
      ∃ ip port, DottedQuad ip ∧ (port ≠ [] ∧ port.all isDigit = true) ∧
        rest = ip ++ ' ' :: port := by
  rw [InGrammar_iff]
  constructor
  · rintro (h | h | ⟨r, -, h⟩ | ⟨r, -, h⟩ | ⟨i', x', y', -, -, -, h⟩ | ⟨ip', -, h⟩ |
      ⟨ip', p, hip', hp', h⟩)
    · simp [lit_INIT, lit_CONNINFO] at h
    · simp [lit_ACCEPT, lit_CONNINFO] at h
    · simp [lit_DENY, lit_CONNINFO] at h
    · simp [lit_RESET, lit_CONNINFO] at h
    · simp [lit_DHPUB, lit_CONNINFO] at h
    · simp [lit_TUNNIP, lit_CONNINFO] at h
    · exact ⟨ip', p, hip', hp', List.append_cancel_left h⟩
  · rintro ⟨ip, port, hip, hp, rfl⟩
    exact Or.inr (Or.inr (Or.inr (Or.inr (Or.inr (Or.inr ⟨ip, port, hip, hp, rfl⟩)))))

theorem InGrammar_DHPUB (rest : List Char) :
    InGrammar ("DHPUB ".toList ++ rest) ↔
      ∃ i x y, isDigit03 i = true ∧ (x ≠ [] ∧ x.all isB64 = true) ∧
        (y ≠ [] ∧ y.all isB64 = true) ∧ rest = i :: ' ' :: (x ++ ' ' :: y) := by
  rw [InGrammar_iff]
  constructor
  · rintro (h | h | ⟨r, -, h⟩ | ⟨r, -, h⟩ | ⟨i', x', y', hi', hx', hy', h⟩ | ⟨ip', -, h⟩ |
      ⟨ip', p, -, -, h⟩)
    · simp [lit_INIT, lit_DHPUB] at h
    · simp [lit_ACCEPT, lit_DHPUB] at h
    · simp [lit_DENY, lit_DHPUB] at h
    · simp [lit_RESET, lit_DHPUB] at h
    · exact ⟨i', x', y', hi', hx', hy', List.append_cancel_left h⟩
    · simp [lit_TUNNIP, lit_DHPUB] at h
    · simp [lit_CONNINFO, lit_DHPUB] at h
  · rintro ⟨i, x, y, hi, hx, hy, rfl⟩
    exact Or.inr (Or.inr (Or.inr (Or.inr (Or.inl ⟨i, x, y, hi, hx, hy, rfl⟩))))

theorem reject_trailing_INIT (post : List Char) (h : post ≠ []) :
    ¬ InGrammar ("INIT".toList ++ post) := by
  rw [InGrammar_iff]
  rintro (h' | h' | ⟨r, -, h'⟩ | ⟨r, -, h'⟩ | ⟨i', x', y', -, -, -, h'⟩ | ⟨ip', -, h'⟩ |
    ⟨ip', p, -, -, h'⟩)
  · exact h (List.append_cancel_left (h'.trans (List.append_nil _).symm))
  · simp [lit_INIT, lit_ACCEPT] at h'
  · simp [lit_INIT, lit_DENY] at h'
  · simp [lit_INIT, lit_RESET] at h'
  · simp [lit_INIT, lit_DHPUB] at h'
  · simp [lit_INIT, lit_TUNNIP] at h'
  · simp [lit_INIT, lit_CONNINFO] at h'

theorem reject_trailing_ACCEPT (post : List Char) (h : post ≠ []) :
    ¬ InGrammar ("ACCEPT".toList ++ post) := by
  rw [InGrammar_iff]
  rintro (h' | h' | ⟨r, -, h'⟩ | ⟨r, -, h'⟩ | ⟨i', x', y', -, -, -, h'⟩ | ⟨ip', -, h'⟩ |
    ⟨ip', p, -, -, h'⟩)
  · simp [lit_INIT, lit_ACCEPT] at h'
  · exact h (List.append_cancel_left (h'.trans (List.append_nil _).symm))
  · simp [lit_ACCEPT, lit_DENY] at h'
  · simp [lit_ACCEPT, lit_RESET] at h'
  · simp [lit_ACCEPT, lit_DHPUB] at h'
  · simp [lit_ACCEPT, lit_TUNNIP] at h'
  · simp [lit_ACCEPT, lit_CONNINFO] at h'

theorem leading_never_Init_or_Accept (pre : List Char) (h : pre ≠ []) (m : Message) :
    (ParseMessage (pre ++ "INIT".toList) = .ok m → m.Typ ≠ Init) ∧
    (ParseMessage (pre ++ "ACCEPT".toList) = .ok m → m.Typ ≠ Accept) := by
  constructor
  · intro hp ht
    have hs := ((ParseMessage_ok_iff _ _).1 hp).2.2.2
    simp only [Message.String, ht, if_true] at hs
    exact h (List.append_cancel_right (hs.symm.trans (List.nil_append _).symm))
  · intro hp ht
    have hs := ((ParseMessage_ok_iff _ _).1 hp).2.2.2
    have e1 : ¬ Accept = Init := by decide
    have e2 : ¬ Accept = Deny := by decide
    simp only [Message.String, ht, e1, e2, if_true, if_false] at hs
    exact h (List.append_cancel_right (hs.symm.trans (List.nil_append _).symm))

theorem Rejected_iff (line : List Char) : Rejected line ↔ ¬ InGrammar line := by
  constructor
  · intro h
    exact (ParseMessage_error_iff line).1 ⟨_, h⟩
  · intro h
    rcases match_cases line with ⟨h1, h2, h3, h4, h5, h6, h7⟩ | ⟨t, d, hv, hl, -⟩
    · exact parse_error_of_no_match line h1 h2 h3 h4 h5 h6 h7
    · exact absurd ⟨t, d, hv, hl⟩ h

/-- C3: `ParseMessage` returns the parse error, and no message, exactly on the
lines that are not in their entirety one of the seven grammars; in particular
INIT or ACCEPT followed by anything or led by one character is rejected (and
with any leading text is never read as Init or Accept), a DHPUB line is
accepted only with an index that is one digit in 0..3 followed by both fields
x and y, a TUNNIP line only when all that follows is a dotted quad, and a
CONNINFO line only with a dotted quad and a non-empty decimal port; and a
successful parse stores exactly the fields of its type. -/
theorem C3_grammar_rejection :
    (∀ line, Rejected line ↔ ¬ InGrammar line) ∧
    (∀ line, InGrammar line ↔
      line = "INIT".toList ∨ line = "ACCEPT".toList ∨
      (∃ r, r.all isDot = true ∧ line = "DENY ".toList ++ r) ∨
      (∃ r, r.all isDot = true ∧ line = "RESET ".toList ++ r) ∨
      (∃ i x y, isDigit03 i = true ∧ (x ≠ [] ∧ x.all isB64 = true) ∧
        (y ≠ [] ∧ y.all isB64 = true) ∧
        line = "DHPUB ".toList ++ i :: ' ' :: (x ++ ' ' :: y)) ∨
      (∃ ip, DottedQuad ip ∧ line = "TUNNIP ".toList ++ ip) ∨
      (∃ ip port, DottedQuad ip ∧ (port ≠ [] ∧ port.all isDigit = true) ∧
        line = "CONNINFO ".toList ++ (ip ++ ' ' :: port))) ∧
    (∀ line, Rejected line → ∀ m, ParseMessage line ≠ .ok m) ∧
    (∀ line m, ParseMessage line = .ok m → ValidFields m.Typ m.Data) ∧
    (∀ c, Rejected (c :: "INIT".toList) ∧ Rejected (c :: "ACCEPT".toList)) ∧
    (∀ post, post ≠ [] →
      Rejected ("INIT".toList ++ post) ∧ Rejected ("ACCEPT".toList ++ post)) ∧
    (∀ pre m, pre ≠ [] →
      (ParseMessage (pre ++ "INIT".toList) = .ok m → m.Typ ≠ Init) ∧
      (ParseMessage (pre ++ "ACCEPT".toList) = .ok m → m.Typ ≠ Accept)) ∧
    (∀ rest, Rejected ("DHPUB ".toList ++ rest) ↔
      ¬ ∃ i x y, isDigit03 i = true ∧ (x ≠ [] ∧ x.all isB64 = true) ∧
        (y ≠ [] ∧ y.all isB64 = true) ∧ rest = i :: ' ' :: (x ++ ' ' :: y)) ∧
    (∀ i rest, isDigit03 i = false → Rejected ("DHPUB ".toList ++ i :: rest)) ∧
    (∀ i j rest, j ≠ ' ' → Rejected ("DHPUB ".toList ++ i :: j :: rest)) ∧
    (∀ i x, ' ' ∉ x →
      Rejected ("DHPUB ".toList ++ i :: ' ' :: x) ∧ Rejected ("DHPUB ".toList ++ [i])) ∧
    (∀ i x y, ' ' ∉ x → x = [] ∨ y = [] →
      Rejected ("DHPUB ".toList ++ i :: ' ' :: (x ++ ' ' :: y))) ∧
    (∀ rest, Rejected ("TUNNIP ".toList ++ rest) ↔ ¬ DottedQuad rest) ∧
    (∀ ip c t, DottedQuad ip → isDigit c = false →
      Rejected ("TUNNIP ".toList ++ (ip ++ c :: t))) ∧
    (∀ rest, Rejected ("CONNINFO ".toList ++ rest) ↔
      ¬ ∃ ip port, DottedQuad ip ∧ (port ≠ [] ∧ port.all isDigit = true) ∧
        rest = ip ++ ' ' :: port) ∧
    (∀ ip port, DottedQuad ip → port = [] ∨ port.all isDigit = false →
      Rejected ("CONNINFO ".toList ++ (ip ++ ' ' :: port)) ∧
      Rejected ("CONNINFO ".toList ++ ip)) := by
  refine ⟨Rejected_iff, InGrammar_iff, ?_, ?_, ?_, ?_, ?_, ?_, ?_, ?_, ?_, ?_, ?_, ?_, ?_, ?_⟩
  · intro line h m hm
    rw [Rejected, hm] at h
    cases h
  · intro line m h
    exact ((ParseMessage_ok_iff line m).1 h).2.2.1
  · intro c
    exact ⟨(Rejected_iff _).2 (reject_lead_INIT c), (Rejected_iff _).2 (reject_lead_ACCEPT c)⟩
  · intro post hpost
    exact ⟨(Rejected_iff _).2 (reject_trailing_INIT post hpost),
      (Rejected_iff _).2 (reject_trailing_ACCEPT post hpost)⟩
  · intro pre m hpre
    exact leading_never_Init_or_Accept pre hpre m
  · intro rest
    rw [Rejected_iff, InGrammar_DHPUB]
  · intro i rest hi
    exact (Rejected_iff _).2 (reject_DHPUB_index i rest hi)
  · intro i j rest hj
    exact (Rejected_iff _).2 (reject_DHPUB_long_index i j rest hj)
  · intro i x hx
    exact ⟨(Rejected_iff _).2 (reject_DHPUB_one_field i x hx).1,
      (Rejected_iff _).2 (reject_DHPUB_one_field i x hx).2⟩
  · intro i x y hx hxy
    exact (Rejected_iff _).2 (reject_DHPUB_empty_field i x y hx hxy)
  · intro rest
    rw [Rejected_iff, InGrammar_TUNNIP]
  · intro ip c t hip hc
    exact (Rejected_iff _).2 (reject_TUNNIP_trailing ip t c hip hc)
  · intro rest
    rw [Rejected_iff, InGrammar_CONNINFO]
  · intro ip port hip hp
    exact ⟨(Rejected_iff _).2 (reject_CONNINFO_port ip port hip hp).1,
      (Rejected_iff _).2 (reject_CONNINFO_port ip port hip hp).2⟩

theorem C3_grammar_rejection_witness :
    Rejected "INIT ".toList ∧
    Rejected "DHPUB 4 QUFB QkI=".toList ∧
    Rejected "DHPUB 12 QUFB QkI=".toList ∧
    Rejected "DHPUB 0 QUFB".toList ∧
    Rejected "TUNNIP 10.0.0.8 extra".toList ∧
    Rejected "CONNINFO 1.2.3.4 50x0".toList ∧
    Rejected "CONNINFO 1.2.3.4".toList ∧
    ValidFields Conninfo exConninfo.Data :=
  have hq : DottedQuad "10.0.0.8".toList :=
    ⟨"10".toList, ['0'], ['0'], ['8'], rfl, rfl, rfl, rfl, rfl⟩
  have hq' : DottedQuad "1.2.3.4".toList := ⟨['1'], ['2'], ['3'], ['4'], rfl, rfl, rfl, rfl, rfl⟩
  ⟨(C3_grammar_rejection.2.2.2.2.2.1 [' '] (by decide)).1,
   C3_grammar_rejection.2.2.2.2.2.2.2.2.1 '4' " QUFB QkI=".toList (by decide),
   C3_grammar_rejection.2.2.2.2.2.2.2.2.2.1 '1' '2' " QUFB QkI=".toList (by decide),
   (C3_grammar_rejection.2.2.2.2.2.2.2.2.2.2.1 '0' "QUFB".toList (by decide)).1,
   C3_grammar_rejection.2.2.2.2.2.2.2.2.2.2.2.2.2.1 "10.0.0.8".toList ' ' "extra".toList hq
     (by decide),
   (C3_grammar_rejection.2.2.2.2.2.2.2.2.2.2.2.2.2.2.2 "1.2.3.4".toList "50x0".toList hq'
      (Or.inr (by decide))).1,
   (C3_grammar_rejection.2.2.2.2.2.2.2.2.2.2.2.2.2.2.2 "1.2.3.4".toList "50x0".toList hq'
      (Or.inr (by decide))).2,
   C3_grammar_rejection.2.2.2.1 "CONNINFO 1.2.3.4 5000".toList exConninfo (by rfl)⟩

theorem find?_eq_of_perm {α : Type} (p : α → Bool) (l l' : List α) (hp : l.Perm l')
    (hd : l.Pairwise (fun a b => ¬ (p a = true ∧ p b = true))) :
    l.find? p = l'.find? p := by
  have hsymm : ∀ {a b : α}, ¬ (p a = true ∧ p b = true) → ¬ (p b = true ∧ p a = true) :=
    fun h h' => h ⟨h'.2, h'.1⟩
  induction hp with
  | nil => rfl
  | cons x _ ih =>
    cases hx : p x
    · simp only [List.find?, hx]
      exact ih (List.Pairwise.of_cons hd)
    · simp only [List.find?, hx]
  | swap x y l =>
    rw [List.pairwise_cons] at hd
    have hxy := hd.1 x (List.mem_cons_self _ _)
    cases hx : p x <;> cases hy : p y
    · simp only [List.find?, hx, hy]
    · simp only [List.find?, hx, hy]
    · simp only [List.find?, hx, hy]
    · exact absurd ⟨hy, hx⟩ hxy
  | trans h1 _ ih1 ih2 =>
    rw [ih1 hd]
    exact ih2 ((h1.pairwise_iff hsymm).1 hd)

theorem sourceOrder_disjoint (line : List Char) :
    sourceOrder.Pairwise (fun g h =>
      ¬ (MatchString g.re line = true ∧ MatchString h.re line = true)) := by
  have t := take2_of_match line
  obtain ⟨t1, t2, t3, t4, t5, t6, t7⟩ := t
  simp only [sourceOrder, List.pairwise_cons, List.mem_cons, List.mem_singleton,
    List.not_mem_nil, forall_eq_or_imp, forall_eq, initCase, acceptCase, denyCase, resetCase,
    dhpubCase, tunnipCase, conninfoCase, List.Pairwise.nil, and_true, not_and, false_imp_iff,
    implies_true]
  refine ⟨⟨?_, ?_, ?_, ?_, ?_, ?_⟩, ⟨?_, ?_, ?_, ?_, ?_⟩, ⟨?_, ?_, ?_, ?_⟩, ⟨?_, ?_, ?_⟩,
    ⟨?_, ?_⟩, ?_⟩ <;> intro ha hb
  · exact absurd ((t1 ha).symm.trans (t2 hb)) (by decide)
  · exact absurd ((t1 ha).symm.trans (t3 hb)) (by decide)
  · exact absurd ((t1 ha).symm.trans (t4 hb)) (by decide)
  · exact absurd ((t1 ha).symm.trans (t5 hb)) (by decide)
  · exact absurd ((t1 ha).symm.trans (t6 hb)) (by decide)
  · exact absurd ((t1 ha).symm.trans (t7 hb)) (by decide)
  · exact absurd ((t2 ha).symm.trans (t3 hb)) (by decide)
  · exact absurd ((t2 ha).symm.trans (t4 hb)) (by decide)
  · exact absurd ((t2 ha).symm.trans (t5 hb)) (by decide)
  · exact absurd ((t2 ha).symm.trans (t6 hb)) (by decide)
  · exact absurd ((t2 ha).symm.trans (t7 hb)) (by decide)
  · exact absurd ((t3 ha).symm.trans (t4 hb)) (by decide)
  · exact absurd ((t3 ha).symm.trans (t5 hb)) (by decide)
  · exact absurd ((t3 ha).symm.trans (t6 hb)) (by decide)
  · exact absurd ((t3 ha).symm.trans (t7 hb)) (by decide)
  · exact absurd ((t4 ha).symm.trans (t5 hb)) (by decide)
  · exact absurd ((t4 ha).symm.trans (t6 hb)) (by decide)
  · exact absurd ((t4 ha).symm.trans (t7 hb)) (by decide)
  · exact absurd ((t5 ha).symm.trans (t6 hb)) (by decide)
  · exact absurd ((t5 ha).symm.trans (t7 hb)) (by decide)
  · exact absurd ((t6 ha).symm.trans (t7 hb)) (by decide)

theorem ParseMessage_eq_parseWith (line : List Char) :
    ParseMessage line = parseWith sourceOrder line := by
  simp only [ParseMessage, parseWith, sourceOrder, List.find?, initCase, acceptCase, denyCase,
    resetCase, dhpubCase, tunnipCase, conninfoCase]
  cases MatchString initRE line <;> simp only [Bool.false_eq_true, if_false, if_true]
  cases MatchString acceptRE line <;> simp only [Bool.false_eq_true, if_false, if_true]
  cases MatchString denyRE line <;> simp only [Bool.false_eq_true, if_false, if_true]
  cases MatchString resetRE line <;> simp only [Bool.false_eq_true, if_false, if_true]
  cases MatchString dhpubRE line <;> simp only [Bool.false_eq_true, if_false, if_true]
  cases MatchString tunnipRE line <;> simp only [Bool.false_eq_true, if_false, if_true]
  cases MatchString conninfoRE line <;> simp only [Bool.false_eq_true, if_false, if_true]

theorem tableOrder_perm : tableOrder.Perm sourceOrder := by
  simp only [tableOrder, sourceOrder]
  refine List.Perm.cons _ (List.Perm.cons _ (List.Perm.cons _ ?_))
  exact (List.perm_append_comm :
    ([dhpubCase, tunnipCase, conninfoCase] ++ [resetCase]).Perm
      ([resetCase] ++ [dhpubCase, tunnipCase, conninfoCase]))

/-- C4: the seven grammars are pairwise disjoint (no line matches two of the
patterns), `ParseMessage` is the `switch` over them in source order, and trying
them in any other order, such as the order of the table with Reset last, gives
the same result on every line. -/
theorem C4_grammars_disjoint (line : List Char) :
    sourceOrder.Pairwise (fun g h =>
      ¬ (MatchString g.re line = true ∧ MatchString h.re line = true)) ∧
    ParseMessage line = parseWith sourceOrder line ∧
    (∀ gs : List Grammar, gs.Perm sourceOrder → parseWith gs line = ParseMessage line) ∧
    parseWith tableOrder line = ParseMessage line := by
  have hperm : ∀ gs : List Grammar, gs.Perm sourceOrder →
      parseWith gs line = ParseMessage line := by
    intro gs hp
    rw [ParseMessage_eq_parseWith]
    simp only [parseWith]
    rw [find?_eq_of_perm _ sourceOrder gs hp.symm (sourceOrder_disjoint line)]
  exact ⟨sourceOrder_disjoint line, ParseMessage_eq_parseWith line, hperm,
    hperm tableOrder tableOrder_perm⟩

theorem C4_grammars_disjoint_witness :
    parseWith [conninfoCase, tunnipCase, dhpubCase, resetCase, denyCase, acceptCase, initCase]
      "RESET Invalid state: None".toList = ParseMessage "RESET Invalid state: None".toList :=
  (C4_grammars_disjoint "RESET Invalid state: None".toList).2.2.1
    [conninfoCase, tunnipCase, dhpubCase, resetCase, denyCase, acceptCase, initCase]
    (List.reverse_perm sourceOrder)

/-! ## Claims about the state machine -/

theorem resetWith_eq (reason : String) (st : ConState) (w : World) :
    resetWith reason st w =
      (afterReset st,
        { w with sent := w.sent ++ { Typ := tvpn.Reset, Data := [("reason", reason.toList)] } ::
          (if st.Init then [{ Typ := tvpn.Init, To := st.Name }] else []) }) := by
  cases h : st.Init <;>
    simp [resetWith, ConState.Reset, ConState.InitState, SendMessage, afterReset, h]

theorem countReset_append (a b : List Message) :
    countReset (a ++ b) = countReset a + countReset b := by
  simp [countReset, List.countP_append]

/-- C5 as stated fails in Connected: a conversation in Connected that receives an
Init message sends no Reset and keeps its state, its four secrets, its tunnel
address and its port. -/
theorem C5_connected_never_resets :
    Input exEnv exConnected { Typ := tvpn.Init, From := "bob" } {} = some (exConnected, {}) ∧
    accepts exConnected.State tvpn.Init = false ∧
    countReset ({} : World).sent = 0 ∧ exConnected.State = Connected ∧
    exConnected.Key = [some 5, some 6, some 7, some 8] := by
  decide

theorem default_to_reset (env : Env) (st : ConState) (mes : Message) (w : World)
    (hs : handshakeState st.State = true) (hacc : accepts st.State mes.Typ = false) :
    ∃ st' w', Input env st mes w = some (st', w') ∧
      st' = afterReset st ∧
      (∃ reason, w'.sent = w.sent ++ { Typ := tvpn.Reset, Data := [("reason", reason)] } ::
        (if st.Init then [{ Typ := tvpn.Init, To := st.Name }] else [])) ∧
      countReset w'.sent = countReset w.sent + 1 ∧
      st'.State = (if st.Init then tvpn.InitState else NoneState) ∧
      st'.Params = [] ∧ st'.Key = [] ∧ st'.IP = none ∧ st'.Port = 0 := by
  have key : ∀ reason : String, ∃ st' w', some (resetWith reason st w) = some (st', w') ∧
      st' = afterReset st ∧
      (∃ reason, w'.sent = w.sent ++ { Typ := tvpn.Reset, Data := [("reason", reason)] } ::
        (if st.Init then [{ Typ := tvpn.Init, To := st.Name }] else [])) ∧
      countReset w'.sent = countReset w.sent + 1 ∧
      st'.State = (if st.Init then tvpn.InitState else NoneState) ∧
      st'.Params = [] ∧ st'.Key = [] ∧ st'.IP = none ∧ st'.Port = 0 := by
    intro reason
    refine ⟨_, _, by rw [resetWith_eq], rfl, ⟨reason.toList, rfl⟩, ?_, rfl, rfl, rfl, rfl, rfl⟩
    simp only [countReset_append]
    cases st.Init <;> simp [countReset, tvpn.Reset, tvpn.Init]
  simp only [handshakeState, Bool.or_eq_true, beq_iff_eq] at hs
  simp only [accepts, Bool.or_eq_false_iff, Bool.and_eq_false_iff, beq_eq_false_iff_ne,
    ne_eq] at hacc
  obtain ⟨⟨⟨⟨h0, h1⟩, h2⟩, h3⟩, h4⟩ := hacc
  rcases hs with (((hs | hs) | hs) | hs) | hs
  · have ht : ¬ mes.Typ = tvpn.Init := by
      rcases h0 with h | h
      · exact absurd hs h
      · exact h
    simp only [Input, hs, if_true, noneState, ht, if_false]
    exact key _
  · have ht : ¬ mes.Typ = Accept := by
      rcases h1 with h | h
      · exact absurd hs h
      · exact h
    have e0 : ¬ tvpn.InitState = NoneState := by decide
    simp only [Input, hs, e0, if_true, if_false, initState, ht]
    exact key _
  · have ht : ¬ mes.Typ = Dhpub := by
      rcases h2 with h | h
      · exact absurd hs h
      · exact h
    have e0 : ¬ DHNeg = NoneState := by decide
    have e1 : ¬ DHNeg = tvpn.InitState := by decide
    simp only [Input, hs, e0, e1, if_true, if_false, dhnegState, ht]
    exact key _
  · have ht : ¬ mes.Typ = Tunnip := by
      rcases h3 with h | h
      · exact absurd hs h
      · exact h
    have e0 : ¬ TunNeg = NoneState := by decide
    have e1 : ¬ TunNeg = tvpn.InitState := by decide
    have e2 : ¬ TunNeg = DHNeg := by decide
    simp only [Input, hs, e0, e1, e2, if_true, if_false, tunnegState, ht]
    exact key _
  · have ht : ¬ mes.Typ = Conninfo := by
      rcases h4 with h | h
      · exact absurd hs h
      · exact h
    have e0 : ¬ ConNeg = NoneState := by decide
    have e1 : ¬ ConNeg = tvpn.InitState := by decide
    have e2 : ¬ ConNeg = DHNeg := by decide
    have e3 : ¬ ConNeg = TunNeg := by decide
    simp only [Input, hs, e0, e1, e2, e3, if_true, if_false, connegState, ht]
    exact key _

theorem Input_inert (env : Env) (st : ConState) (mes : Message) (w : World)
    (hs : st.State = Connected ∨ st.State = DeleteMe) : Input env st mes w = some (st, w) := by
  rcases hs with hs | hs
  · have e0 : ¬ Connected = NoneState := by decide
    have e1 : ¬ Connected = tvpn.InitState := by decide
    have e2 : ¬ Connected = DHNeg := by decide
    have e3 : ¬ Connected = TunNeg := by decide
    have e4 : ¬ Connected = ConNeg := by decide
    simp only [Input, hs, e0, e1, e2, e3, e4, if_true, if_false, connectedState]
  · have e0 : ¬ DeleteMe = NoneState := by decide
    have e1 : ¬ DeleteMe = tvpn.InitState := by decide
    have e2 : ¬ DeleteMe = DHNeg := by decide
    have e3 : ¬ DeleteMe = TunNeg := by decide
    have e4 : ¬ DeleteMe = ConNeg := by decide
    have e5 : ¬ DeleteMe = Connected := by decide
    simp only [Input, hs, e0, e1, e2, e3, e4, e5, if_false]

/-- C5 (amended): from each of the states None, Init, DHNeg, TunNeg and ConNeg,
`Input` with a message whose type the state has no `case` for sends exactly one
Reset message (followed by one Init when the conversation is the initiator) and
leaves the conversation in None, or Init for an initiator, with parameters,
secrets, tunnel address and port cleared; in Connected and DeleteMe `Input`
sends nothing and changes nothing. -/
theorem C5_default_to_reset (env : Env) (st : ConState) (mes : Message) (w : World) :
    (handshakeState st.State = true → accepts st.State mes.Typ = false →
      ∃ st' w', Input env st mes w = some (st', w') ∧
        st' = afterReset st ∧
        (∃ reason, w'.sent = w.sent ++ { Typ := tvpn.Reset, Data := [("reason", reason)] } ::
          (if st.Init then [{ Typ := tvpn.Init, To := st.Name }] else [])) ∧
        countReset w'.sent = countReset w.sent + 1 ∧
        st'.State = (if st.Init then tvpn.InitState else NoneState) ∧
        st'.Params = [] ∧ st'.Key = [] ∧ st'.IP = none ∧ st'.Port = 0) ∧
    (st.State = Connected ∨ st.State = DeleteMe → Input env st mes w = some (st, w)) :=
  ⟨default_to_reset env st mes w, Input_inert env st mes w⟩

theorem C5_default_to_reset_witness :
    ∃ st' w', Input exEnv (exTunNeg 167772164) { Typ := Conninfo, From := "bob" } {} =
        some (st', w') ∧ st' = afterReset (exTunNeg 167772164) ∧
      (∃ reason, w'.sent = ({} : World).sent ++
        { Typ := tvpn.Reset, Data := [("reason", reason)] } ::
          (if (exTunNeg 167772164).Init then [{ Typ := tvpn.Init, To := "bob" }] else [])) ∧
      countReset w'.sent = countReset ({} : World).sent + 1 ∧
      st'.State = (if (exTunNeg 167772164).Init then tvpn.InitState else NoneState) ∧
      st'.Params = [] ∧ st'.Key = [] ∧ st'.IP = none ∧ st'.Port = 0 :=
  (C5_default_to_reset exEnv (exTunNeg 167772164) { Typ := Conninfo, From := "bob" } {}).1
    (by decide) (by decide)

theorem Input_DHNeg (env : Env) (st : ConState) (mes : Message) (w : World)
    (hs : st.State = DHNeg) : Input env st mes w = dhnegState env st mes w := by
  have e0 : ¬ DHNeg = NoneState := by decide
  have e1 : ¬ DHNeg = tvpn.InitState := by decide
  simp only [Input, hs, e0, e1, if_true, if_false]

theorem Input_TunNeg (env : Env) (st : ConState) (mes : Message) (w : World)
    (hs : st.State = TunNeg) : Input env st mes w = tunnegState env st mes w := by
  have e0 : ¬ TunNeg = NoneState := by decide
  have e1 : ¬ TunNeg = tvpn.InitState := by decide
  have e2 : ¬ TunNeg = DHNeg := by decide
  simp only [Input, hs, e0, e1, e2, if_true, if_false]

theorem Input_NoneState (env : Env) (st : ConState) (mes : Message) (w : World)
    (hs : st.State = NoneState) : Input env st mes w = noneState env st mes w := by
  simp only [Input, hs, if_true]

/-- C6: for a conversation in DHNeg with its 4 slots allocated that receives a
Dhpub message with index `i` in 0..3 whose components decode, slot `i` is
overwritten with the derived secret and no other slot changes; the
conversation moves to TunNeg, sending one Tunnip with the allocated address,
if and only if all 4 slots then hold a secret, and otherwise stays in DHNeg,
sends nothing and changes nothing else.  The message sent has type Tunnip, is
addressed to the peer, carries under `ip` the text of the address that
`alloc.Request` returned, which is also stored in `IP`, and prints as `TUNNIP`
followed by that text; nothing else of the conversation changes and the only
other effect is the one call of `alloc.Request`.  In particular, while another
slot is still empty, a Dhpub for index `i` leaves the state DHNeg. -/
theorem C6_dhneg_slots (env : Env) (st : ConState) (mes : Message) (w : World)
    (x y : Option Nat) (i : Int) (hs : st.State = DHNeg) (ht : mes.Typ = Dhpub)
    (hd : mes.DhParams = .ok (x, y, i)) (hK : st.Key.length = 4)
    (hP : st.Params.length = 4) (hi : 0 ≤ i ∧ i < 4) :
    ∃ st' w' p, st.Params[i.toNat]? = some p ∧ Input env st mes w = some (st', w') ∧
      st'.Key = st.Key.set i.toNat (some (env.GenMutSecret p ⟨x, y⟩)) ∧
      st'.Key[i.toNat]? = some (some (env.GenMutSecret p ⟨x, y⟩)) ∧
      (∀ j, j ≠ i.toNat → st'.Key[j]? = st.Key[j]?) ∧
      st'.Key.length = 4 ∧
      (st'.State = TunNeg ↔ ∀ v ∈ st'.Key, v ≠ none) ∧
      ((∀ v ∈ st'.Key, v ≠ none) →
        st'.IP = env.Request w.requests ∧
        w'.sent = w.sent ++ [tunnipMsg st.Name (env.IPString (env.Request w.requests))] ∧
        w'.sent = w.sent ++
          [Message.mk st.Name "" Tunnip [("ip", env.IPString (env.Request w.requests))]] ∧
        Message.String (tunnipMsg st.Name (env.IPString (env.Request w.requests))) =
          "TUNNIP ".toList ++ env.IPString (env.Request w.requests) ∧
        st' = { st with State := TunNeg, Key := st'.Key, IP := env.Request w.requests } ∧
        w' = { w with requests := w.requests + 1, sent := w'.sent }) ∧
      ((∃ v ∈ st'.Key, v = none) →
        st'.State = DHNeg ∧ w' = w ∧ st' = { st with Key := st'.Key }) ∧
      (∀ j, j ≠ i.toNat → st.Key[j]? = some none → st'.State = DHNeg ∧ w' = w) := by
  have hn : i.toNat < 4 := by omega
  have hp : i.toNat < st.Params.length := by omega
  have hk : i.toNat < st.Key.length := by omega
  have hpe : st.Params[i.toNat]? = some st.Params[i.toNat] := List.getElem?_eq_getElem hp
  have hcond : 0 ≤ i ∧ i.toNat < st.Key.length := ⟨hi.1, hk⟩
  have hsame : ∀ sec : Nat, ∀ j, j ≠ i.toNat →
      (st.Key.set i.toNat (some sec))[j]? = st.Key[j]? := by
    intro sec j hj
    rw [List.getElem?_set_ne (Ne.symm hj)]
  have hget : ∀ sec : Nat, (st.Key.set i.toNat (some sec))[i.toNat]? = some (some sec) := by
    intro sec
    rw [List.getElem?_set_self hk]
  have hlen : ∀ sec : Nat, (st.Key.set i.toNat (some sec)).length = 4 := by
    intro sec
    rw [List.length_set]; exact hK
  have hsame := hsame (env.GenMutSecret st.Params[i.toNat] ⟨x, y⟩)
  have hget := hget (env.GenMutSecret st.Params[i.toNat] ⟨x, y⟩)
  have hlen := hlen (env.GenMutSecret st.Params[i.toNat] ⟨x, y⟩)
  rw [Input_DHNeg env st mes w hs]
  by_cases hany : (st.Key.set i.toNat
      (some (env.GenMutSecret st.Params[i.toNat] ⟨x, y⟩))).any (fun v => v.isNone) = true
  · have hex : ∃ v ∈ st.Key.set i.toNat (some (env.GenMutSecret st.Params[i.toNat] ⟨x, y⟩)),
        v = none := by
      obtain ⟨v, hv, hvn⟩ := List.any_eq_true.1 hany
      exact ⟨v, hv, Option.isNone_iff_eq_none.1 hvn⟩
    have hnall : ¬ ∀ v ∈ st.Key.set i.toNat
        (some (env.GenMutSecret st.Params[i.toNat] ⟨x, y⟩)), v ≠ none := by
      intro h
      obtain ⟨v, hv, hvn⟩ := hex
      exact h v hv hvn
    have hne : ¬ DHNeg = TunNeg := by decide
    refine ⟨ConState.mk st.State st.Name st.Params
      (st.Key.set i.toNat (some (env.GenMutSecret st.Params[i.toNat] ⟨x, y⟩)))
      st.IP st.Port st.Friend st.Init, w, st.Params[i.toNat], hpe, ?_,
      rfl, hget, hsame, hlen, ?_, ?_, ?_, ?_⟩
    · simp only [dhnegState, ht, if_true, hd, hcond, and_self, hpe, hany]
    · simp only [hs]
      exact ⟨fun h => absurd h hne, fun h => absurd h hnall⟩
    · intro h; exact absurd h hnall
    · intro _; exact ⟨hs, rfl, rfl⟩
    · intro _ _ _; exact ⟨hs, rfl⟩
  · have hall : ∀ v ∈ st.Key.set i.toNat
        (some (env.GenMutSecret st.Params[i.toNat] ⟨x, y⟩)), v ≠ none := by
      intro v hv hvn
      exact hany (List.any_eq_true.2 ⟨v, hv, by simp [hvn]⟩)
    refine ⟨ConState.mk TunNeg st.Name st.Params
        (st.Key.set i.toNat (some (env.GenMutSecret st.Params[i.toNat] ⟨x, y⟩)))
        (env.Request w.requests) st.Port st.Friend st.Init,
      SendMessage { w with requests := w.requests + 1 }
        (tunnipMsg st.Name (env.IPString (env.Request w.requests))),
      st.Params[i.toNat], hpe, ?_, rfl, hget, hsame, hlen, ?_, ?_, ?_, ?_⟩
    · simp only [dhnegState, ht, if_true, hd, hcond, and_self, hpe, hany, Bool.false_eq_true,
        if_false]
    · exact ⟨fun _ => hall, fun _ => rfl⟩
    · intro _; exact ⟨rfl, rfl, rfl, rfl, rfl, rfl⟩
    · rintro ⟨v, hv, hvn⟩; exact absurd hvn (hall v hv)
    · intro j hj hjn
      have := hsame j hj
      rw [hjn] at this
      exact absurd rfl (hall none (List.getElem?_mem this))

theorem C6_dhneg_slots_witness :
    ∃ st' w' p, exDHNeg.Params[(2 : Int).toNat]? = some p ∧
      Input exEnv exDHNeg exDhpub {} = some (st', w') ∧
      st'.Key = exDHNeg.Key.set (2 : Int).toNat
        (some (exEnv.GenMutSecret p ⟨some 4276545, some 16962⟩)) ∧
      st'.Key[(2 : Int).toNat]? =
        some (some (exEnv.GenMutSecret p ⟨some 4276545, some 16962⟩)) ∧
      (∀ j, j ≠ (2 : Int).toNat → st'.Key[j]? = exDHNeg.Key[j]?) ∧
      st'.Key.length = 4 ∧
      (st'.State = TunNeg ↔ ∀ v ∈ st'.Key, v ≠ none) ∧
      ((∀ v ∈ st'.Key, v ≠ none) →
        st'.IP = exEnv.Request ({} : World).requests ∧
        w'.sent = ({} : World).sent ++
          [tunnipMsg exDHNeg.Name (exEnv.IPString (exEnv.Request ({} : World).requests))] ∧
        w'.sent = ({} : World).sent ++
          [Message.mk exDHNeg.Name "" Tunnip
            [("ip", exEnv.IPString (exEnv.Request ({} : World).requests))]] ∧
        Message.String
            (tunnipMsg exDHNeg.Name (exEnv.IPString (exEnv.Request ({} : World).requests))) =
          "TUNNIP ".toList ++ exEnv.IPString (exEnv.Request ({} : World).requests) ∧
        st' = { exDHNeg with State := TunNeg, Key := st'.Key,
                             IP := exEnv.Request ({} : World).requests } ∧
        w' = { ({} : World) with requests := ({} : World).requests + 1, sent := w'.sent }) ∧
      ((∃ v ∈ st'.Key, v = none) →
        st'.State = DHNeg ∧ w' = {} ∧ st' = { exDHNeg with Key := st'.Key }) ∧
      (∀ j, j ≠ (2 : Int).toNat → exDHNeg.Key[j]? = some none →
        st'.State = DHNeg ∧ w' = {}) :=
  C6_dhneg_slots exEnv exDHNeg exDhpub {} (some 4276545) (some 16962) 2 (by decide)
    (by decide) (by rfl) (by decide) (by decide) (by decide)

/-- Example of the completing step: with slots 0, 1, 2 filled, the Dhpub for
index 3 fills the last slot, stores the address `alloc.Request` returned and
sends the one message `TUNNIP 167772164` to `bob`. -/
theorem dhneg_completes_example :
    Input exEnv exDHNeg (exDhpubAt "3") {} =
      some ({ exDHNeg with State := TunNeg, Key := [some 5, some 6, some 7, some 4276546],
                           IP := some 167772164 },
        { sent := [Message.mk "bob" "" Tunnip [("ip", "167772164".toList)]], requests := 1 }) ∧
    Message.String (Message.mk "bob" "" Tunnip [("ip", "167772164".toList)]) =
      "TUNNIP 167772164".toList := by
  constructor <;> rfl

theorem tunneg_tiebreak (env : Env) (st : ConState) (mes : Message) (w : World) (A B : Nat)
    (eip : IP) (eport : Int)
    (hs : st.State = TunNeg) (hA : st.IP = some A) (ht : mes.Typ = Tunnip)
    (hB : (mes.IPInfo env).1 = some B)
    (hd : env.DiscoverExt w.stunCalls.length (choosePort (env.rgenInt w.randCalls)) =
      some (eip, eport)) :
    ∃ st' w', Input env st mes w = some (st', w') ∧ st'.IP = some (max A B) ∧
      w'.released = w.released ++ (if A < B then [some A] else []) ∧
      st'.State = ConNeg ∧
      w'.sent = w.sent ++ [conninfoMsg st.Name (env.IPString eip) eport] := by
  rw [Input_TunNeg env st mes w hs]
  by_cases hlt : A < B
  · have hg : isGreater (some B) (some A) = true := by simp [isGreater, hlt]
    have hmax : max A B = B := max_eq_right (le_of_lt hlt)
    simp only [tunnegState, ht, if_true, hB, hA, hg, hd]
    refine ⟨_, _, rfl, ?_, ?_, ?_, ?_⟩
    · simp only [hmax]
    · simp only [hlt, if_true]; rfl
    · rfl
    · simp only [SendMessage]
  · have hg : isGreater (some B) (some A) = false := by simp [isGreater, hlt]
    have hmax : max A B = A := max_eq_left (not_lt.1 hlt)
    simp only [tunnegState, ht, if_true, hB, hA, hg, hd, Bool.false_eq_true, if_false]
    refine ⟨_, _, rfl, ?_, ?_, ?_, ?_⟩
    · simp only [hmax, hA]
    · simp only [hlt, if_false, List.append_nil]; rfl
    · rfl
    · simp only [SendMessage]

/-- C7: a conversation in TunNeg with tunnel address `A` that receives a Tunnip
carrying a valid IPv4 address `B`, discovery succeeding, ends in ConNeg with
the tunnel address `max A B` (as unsigned numbers) and hands `A` to
`alloc.Release` exactly when `A < B`; so the peer that holds `A` and is sent `B`
and the peer that holds `B` and is sent `A` end with the same address. -/
theorem C7_tiebreak (env1 env2 : Env) (st1 st2 : ConState) (mes1 mes2 : Message)
    (w1 w2 : World) (A B : Nat) (eip1 eip2 : IP) (eport1 eport2 : Int)
    (hs1 : st1.State = TunNeg) (hA1 : st1.IP = some A) (ht1 : mes1.Typ = Tunnip)
    (hB1 : (mes1.IPInfo env1).1 = some B)
    (hd1 : env1.DiscoverExt w1.stunCalls.length (choosePort (env1.rgenInt w1.randCalls)) =
      some (eip1, eport1))
    (hs2 : st2.State = TunNeg) (hB2 : st2.IP = some B) (ht2 : mes2.Typ = Tunnip)
    (hA2 : (mes2.IPInfo env2).1 = some A)
    (hd2 : env2.DiscoverExt w2.stunCalls.length (choosePort (env2.rgenInt w2.randCalls)) =
      some (eip2, eport2)) :
    ∃ st1' w1' st2' w2', Input env1 st1 mes1 w1 = some (st1', w1') ∧
      Input env2 st2 mes2 w2 = some (st2', w2') ∧
      st1'.IP = some (max A B) ∧ st2'.IP = some (max A B) ∧ st1'.IP = st2'.IP ∧
      w1'.released = w1.released ++ (if A < B then [some A] else []) ∧
      w2'.released = w2.released ++ (if B < A then [some B] else []) ∧
      st1'.State = ConNeg ∧ st2'.State = ConNeg := by
  obtain ⟨st1', w1', h1, hip1, hr1, hc1, -⟩ :=
    tunneg_tiebreak env1 st1 mes1 w1 A B eip1 eport1 hs1 hA1 ht1 hB1 hd1
  obtain ⟨st2', w2', h2, hip2, hr2, hc2, -⟩ :=
    tunneg_tiebreak env2 st2 mes2 w2 B A eip2 eport2 hs2 hB2 ht2 hA2 hd2
  rw [max_comm] at hip2
  exact ⟨st1', w1', st2', w2', h1, h2, hip1, hip2, hip1.trans hip2.symm, hr1, hr2, hc1, hc2⟩

theorem C7_tiebreak_witness :
    ∃ st1' w1' st2' w2',
      Input exEnv (exTunNeg 167772164) (exTunnip "10.0.0.8") {} = some (st1', w1') ∧
      Input exEnv (exTunNeg 167772168) (exTunnip "10.0.0.4") {} = some (st2', w2') ∧
      st1'.IP = some (max 167772164 167772168) ∧ st2'.IP = some (max 167772164 167772168) ∧
      st1'.IP = st2'.IP ∧
      w1'.released = ({} : World).released ++
        (if 167772164 < 167772168 then [some 167772164] else []) ∧
      w2'.released = ({} : World).released ++
        (if 167772168 < 167772164 then [some 167772168] else []) ∧
      st1'.State = ConNeg ∧ st2'.State = ConNeg :=
  C7_tiebreak exEnv exEnv (exTunNeg 167772164) (exTunNeg 167772168) (exTunnip "10.0.0.8")
    (exTunnip "10.0.0.4") {} {} 167772164 167772168 (some 16909060) (some 16909060) 5000 5000
    (by decide) (by decide) (by decide) (by decide) (by decide)
    (by decide) (by decide) (by decide) (by decide) (by decide)

/-- C8: for every value `r` the random source returns, the port
`r % (65536 - 49152) + 49152` lies in `[49152, 65536)`; this is the port
`tunnegState` hands to `stun.DiscoverExt` and, when discovery succeeds, keeps as
the local port of the conversation. -/
theorem C8_port_range (env : Env) (st : ConState) (mes : Message) (w : World) (r : Nat) :
    (49152 ≤ choosePort r ∧ choosePort r < 65536) ∧
    (mes.Typ = Tunnip →
      ∃ st' w', tunnegState env st mes w = some (st', w') ∧
        w'.stunCalls = w.stunCalls ++ [choosePort (env.rgenInt w.randCalls)] ∧
        (st'.State = ConNeg → st'.Port = choosePort (env.rgenInt w.randCalls) ∧
          49152 ≤ st'.Port ∧ st'.Port < 65536)) := by
  have hrange : ∀ r : Nat, 49152 ≤ choosePort r ∧ choosePort r < 65536 := by
    intro r
    simp only [choosePort]
    have h1 : (0 : Int) ≤ Int.tmod (r : Int) (65536 - 49152) :=
      Int.tmod_nonneg _ (Int.ofNat_nonneg r)
    have h2 : Int.tmod (r : Int) (65536 - 49152) < 65536 - 49152 :=
      Int.tmod_lt_of_pos _ (by norm_num)
    constructor <;> omega
  refine ⟨hrange r, ?_⟩
  intro ht
  have hne : ∀ s : ConState, (afterReset s).State ≠ ConNeg := by
    intro s
    cases hI : s.Init <;> simp [afterReset, hI, tvpn.InitState, NoneState, ConNeg]
  cases hd : env.DiscoverExt w.stunCalls.length (choosePort (env.rgenInt w.randCalls)) with
  | none =>
    simp only [tunnegState, ht, if_true, hd, resetWith_eq]
    exact ⟨_, _, rfl, rfl, fun h => absurd h (hne _)⟩
  | some res =>
    obtain ⟨eip, eport⟩ := res
    simp only [tunnegState, ht, if_true, hd]
    exact ⟨_, _, rfl, rfl, fun _ => ⟨rfl, hrange (env.rgenInt w.randCalls)⟩⟩

theorem C8_port_range_witness :
    (49152 ≤ choosePort 70000 ∧ choosePort 70000 < 65536) ∧
    ∃ st' w', tunnegState exEnv (exTunNeg 167772164) (exTunnip "10.0.0.8") {} =
        some (st', w') ∧
      w'.stunCalls = ({} : World).stunCalls ++
        [choosePort (exEnv.rgenInt ({} : World).randCalls)] ∧
      (st'.State = ConNeg → st'.Port = choosePort (exEnv.rgenInt ({} : World).randCalls) ∧
        49152 ≤ st'.Port ∧ st'.Port < 65536) :=
  ⟨(C8_port_range exEnv (exTunNeg 167772164) (exTunnip "10.0.0.8") {} 70000).1,
   (C8_port_range exEnv (exTunNeg 167772164) (exTunnip "10.0.0.8") {} 70000).2 (by decide)⟩

/-- C9: for a conversation in None with `Friend = true`, `Input` of an Init
message sends, in this order, one Accept and then four Dhpub messages with
indices 0, 1, 2, 3, each carrying the base64 text of the two public components
of the freshly generated pair stored in that slot, and leaves the conversation
in DHNeg with the 4 parameter slots filled and 4 empty secret slots. -/
theorem C9_friend_handshake (env : Env) (st : ConState) (mes : Message) (w : World)
    (hs : st.State = NoneState) (hf : st.Friend = true) (ht : mes.Typ = tvpn.Init) :
    ∃ st' w', Input env st mes w = some (st', w') ∧
      w'.sent = w.sent ++
        [{ Typ := Accept, To := st.Name },
         dhpubMsg 0 (env.GenX w.genCalls) (env.GenY w.genCalls),
         dhpubMsg 1 (env.GenX (w.genCalls + 1)) (env.GenY (w.genCalls + 1)),
         dhpubMsg 2 (env.GenX (w.genCalls + 2)) (env.GenY (w.genCalls + 2)),
         dhpubMsg 3 (env.GenX (w.genCalls + 3)) (env.GenY (w.genCalls + 3))] ∧
      st'.State = DHNeg ∧
      st'.Params = [dh.GenParams env w.genCalls, dh.GenParams env (w.genCalls + 1),
        dh.GenParams env (w.genCalls + 2), dh.GenParams env (w.genCalls + 3)] ∧
      st'.Key = [none, none, none, none] ∧
      w'.genCalls = w.genCalls + 4 ∧
      (∀ (i x y : Nat), (dhpubMsg i x y).Typ = Dhpub ∧ (dhpubMsg i x y).To = "" ∧
        (dhpubMsg i x y).Data.get "i" = fmtInt i ∧
        (dhpubMsg i x y).Data.get "x" = b64encode (Bytes x) ∧
        (dhpubMsg i x y).Data.get "y" = b64encode (Bytes y)) ∧
      fmtInt 0 = ['0'] ∧ fmtInt 1 = ['1'] ∧ fmtInt 2 = ['2'] ∧ fmtInt 3 = ['3'] := by
  rw [Input_NoneState env st mes w hs]
  simp only [noneState, ht, if_true, hf, startDH, List.foldlM, dhpubStep, dh.GenParams,
    List.length_replicate, List.length_set, SendMessage, Option.bind_eq_bind, Option.some_bind,
    Option.pure_def, Option.map_some', Nat.lt_add_one, Nat.zero_lt_succ,
    show (0 : Nat) < 4 by decide, show (1 : Nat) < 4 by decide, show (2 : Nat) < 4 by decide,
    show (3 : Nat) < 4 by decide]
  refine ⟨_, _, rfl, ?_, rfl, ?_, rfl, rfl, ?_, rfl, rfl, rfl, rfl⟩
  · simp [List.append_assoc]
  · rfl
  · intro i x y
    exact ⟨rfl, rfl, rfl, rfl, rfl⟩

theorem C9_friend_handshake_witness :
    ∃ st' w', Input exEnv (exState true) { Typ := tvpn.Init, From := "bob" } {} =
        some (st', w') ∧
      w'.sent = ({} : World).sent ++
        [{ Typ := Accept, To := (exState true).Name },
         dhpubMsg 0 (exEnv.GenX ({} : World).genCalls) (exEnv.GenY ({} : World).genCalls),
         dhpubMsg 1 (exEnv.GenX (({} : World).genCalls + 1))
           (exEnv.GenY (({} : World).genCalls + 1)),
         dhpubMsg 2 (exEnv.GenX (({} : World).genCalls + 2))
           (exEnv.GenY (({} : World).genCalls + 2)),
         dhpubMsg 3 (exEnv.GenX (({} : World).genCalls + 3))
           (exEnv.GenY (({} : World).genCalls + 3))] ∧
      st'.State = DHNeg ∧
      st'.Params = [dh.GenParams exEnv ({} : World).genCalls,
        dh.GenParams exEnv (({} : World).genCalls + 1),
        dh.GenParams exEnv (({} : World).genCalls + 2),
        dh.GenParams exEnv (({} : World).genCalls + 3)] ∧
      st'.Key = [none, none, none, none] ∧
      w'.genCalls = ({} : World).genCalls + 4 ∧
      (∀ (i x y : Nat), (dhpubMsg i x y).Typ = Dhpub ∧ (dhpubMsg i x y).To = "" ∧
        (dhpubMsg i x y).Data.get "i" = fmtInt i ∧
        (dhpubMsg i x y).Data.get "x" = b64encode (Bytes x) ∧
        (dhpubMsg i x y).Data.get "y" = b64encode (Bytes y)) ∧
      fmtInt 0 = ['0'] ∧ fmtInt 1 = ['1'] ∧ fmtInt 2 = ['2'] ∧ fmtInt 3 = ['3'] :=
  C9_friend_handshake exEnv (exState true) { Typ := tvpn.Init, From := "bob" } {}
    (by decide) (by decide) (by decide)

/-- C10: for a conversation in None with `Friend = false`, `Input` of an Init
message sends exactly one message, the Deny that prints as
`DENY Not Authorized`, generates no key-exchange parameters and leaves the
conversation in DeleteMe with everything else as it was; and in DeleteMe
`Input` of any message changes nothing and sends nothing. -/
theorem C10_denied_peer (env : Env) (st : ConState) (mes : Message) (w : World) :
    (st.State = NoneState → st.Friend = false → mes.Typ = tvpn.Init →
      Input env st mes w =
        some ({ st with State := DeleteMe }, { w with sent := w.sent ++ [denyMsg] }) ∧
      denyMsg.Typ = Deny ∧ denyMsg.String = "DENY Not Authorized".toList) ∧
    (st.State = DeleteMe → Input env st mes w = some (st, w)) := by
  constructor
  · intro hs hf ht
    rw [Input_NoneState env st mes w hs]
    simp only [noneState, ht, if_true, hf, Bool.false_eq_true, if_false, SendMessage]
    exact ⟨trivial, rfl, rfl⟩
  · intro hs
    exact Input_inert env st mes w (Or.inr hs)

theorem C10_denied_peer_witness :
    (Input exEnv (exState false) { Typ := tvpn.Init, From := "bob" } {} =
        some ({ exState false with State := DeleteMe },
          { ({} : World) with sent := ({} : World).sent ++ [denyMsg] }) ∧
      denyMsg.Typ = Deny ∧ denyMsg.String = "DENY Not Authorized".toList) ∧
    Input exEnv { exState false with State := DeleteMe } { Typ := Dhpub, From := "bob" } {} =
      some ({ exState false with State := DeleteMe }, {}) :=
  ⟨(C10_denied_peer exEnv (exState false) { Typ := tvpn.Init, From := "bob" } {}).1
      (by decide) (by decide) (by decide),
   (C10_denied_peer exEnv { exState false with State := DeleteMe }
      { Typ := Dhpub, From := "bob" } {}).2 (by decide)⟩

/-! ## Local reset, reset reasons, decode and backend errors -/

theorem Reset_eq (st : ConState) (reason : List Char) (w : World) :
    ConState.Reset st reason w =
      (afterReset st,
        { w with sent := w.sent ++
          (if st.Init then [{ Typ := tvpn.Init, To := st.Name }] else []) }) := by
  cases h : st.Init <;> simp [ConState.Reset, ConState.InitState, SendMessage, afterReset, h]

/-- C11: the local reset `ConState.Reset`, from any state and for any reason
text, clears the key-exchange parameters, the secrets, the tunnel address and
the local port, keeps `Name`, `Friend` and `Init`, sends no Reset message, and
sends exactly one Init message (to the peer) and ends in Init when the
conversation is the initiator, and sends nothing and ends in None otherwise. -/
theorem C11_local_reset (st : ConState) (reason : List Char) (w : World) :
    (ConState.Reset st reason w).1.Params = [] ∧
    (ConState.Reset st reason w).1.Key = [] ∧
    (ConState.Reset st reason w).1.IP = none ∧
    (ConState.Reset st reason w).1.Port = 0 ∧
    (ConState.Reset st reason w).1.Name = st.Name ∧
    (ConState.Reset st reason w).1.Friend = st.Friend ∧
    (ConState.Reset st reason w).1.Init = st.Init ∧
    countReset (ConState.Reset st reason w).2.sent = countReset w.sent ∧
    (ConState.Reset st reason w).1.State = (if st.Init then tvpn.InitState else NoneState) ∧
    (ConState.Reset st reason w).2 =
      { w with sent := w.sent ++
        (if st.Init then [{ Typ := tvpn.Init, To := st.Name }] else []) } := by
  rw [Reset_eq]
  refine ⟨rfl, rfl, rfl, rfl, rfl, rfl, rfl, ?_, rfl, rfl⟩
  simp only [countReset_append]
  cases st.Init <;> simp [countReset, tvpn.Reset, tvpn.Init]

theorem Input_ConNeg (env : Env) (st : ConState) (mes : Message) (w : World)
    (hs : st.State = ConNeg) : Input env st mes w = connegState env st mes w := by
  have e0 : ¬ ConNeg = NoneState := by decide
  have e1 : ¬ ConNeg = tvpn.InitState := by decide
  have e2 : ¬ ConNeg = DHNeg := by decide
  have e3 : ¬ ConNeg = TunNeg := by decide
  simp only [Input, hs, e0, e1, e2, e3, if_true, if_false]

theorem Input_InitState (env : Env) (st : ConState) (mes : Message) (w : World)
    (hs : st.State = tvpn.InitState) : Input env st mes w = initState env st mes w := by
  have e0 : ¬ tvpn.InitState = NoneState := by decide
  simp only [Input, hs, e0, if_true, if_false]

/-- The reason each handler puts in the Reset of its `default` branch: the name
of the state in None, Init and DHNeg, but `DHNeg` in TunNeg and in ConNeg. -/
theorem default_reason (env : Env) (st : ConState) (mes : Message) (w : World) :
    (st.State = NoneState → mes.Typ ≠ tvpn.Init →
      Input env st mes w = some (resetWith "Invalid state: None" st w)) ∧
    (st.State = tvpn.InitState → mes.Typ ≠ Accept →
      Input env st mes w = some (resetWith "Invalid state: Init" st w)) ∧
    (st.State = DHNeg → mes.Typ ≠ Dhpub →
      Input env st mes w = some (resetWith "Invalid state: DHNeg" st w)) ∧
    (st.State = TunNeg → mes.Typ ≠ Tunnip →
      Input env st mes w = some (resetWith "Invalid state: DHNeg" st w)) ∧
    (st.State = ConNeg → mes.Typ ≠ Conninfo →
      Input env st mes w = some (resetWith "Invalid state: DHNeg" st w)) := by
  refine ⟨?_, ?_, ?_, ?_, ?_⟩ <;> intro hs ht
  · rw [Input_NoneState env st mes w hs]; simp only [noneState, ht, if_false]
  · rw [Input_InitState env st mes w hs]; simp only [initState, ht, if_false]
  · rw [Input_DHNeg env st mes w hs]; simp only [dhnegState, ht, if_false]
  · rw [Input_TunNeg env st mes w hs]; simp only [tunnegState, ht, if_false]
  · rw [Input_ConNeg env st mes w hs]; simp only [connegState, ht, if_false]

/-- C12 fails on the code: a conversation in TunNeg that receives an Init, and a
conversation in ConNeg that receives an Init, each send the single Reset whose
reason is `Invalid state: DHNeg`, not the name of their own state. -/
theorem C12_reason_names_DHNeg :
    (Input exEnv (exTunNeg 167772164) { Typ := tvpn.Init, From := "bob" } {}).map
        (fun r => r.2.sent.map Message.String) =
      some ["RESET Invalid state: DHNeg".toList] ∧
    (Input exEnv exConNeg { Typ := tvpn.Init, From := "bob" } {}).map
        (fun r => r.2.sent.map Message.String) =
      some ["RESET Invalid state: DHNeg".toList] ∧
    "RESET Invalid state: DHNeg".toList ≠ "RESET Invalid state: TunNeg".toList ∧
    "RESET Invalid state: DHNeg".toList ≠ "RESET Invalid state: ConNeg".toList := by
  decide

/-- C13: for a conversation in DHNeg, `Input` of a Dhpub message on which
`DhParams` returns an error sends exactly one Reset, with reason
`Invalid DH Params` (followed by one Init for an initiator), stores no secret
and performs the local reset, ending in None, or Init for an initiator, with
all slots cleared; and for a Dhpub message `DhParams` returns an error exactly
when the `x` field or the `y` field fails base64 decoding. -/
theorem C13_invalid_dh_params (env : Env) (st : ConState) (mes : Message) (w : World) :
    (st.State = DHNeg → mes.Typ = Dhpub → (∃ e, mes.DhParams = .error e) →
      Input env st mes w =
        some (afterReset st,
          { w with sent := w.sent ++
            { Typ := tvpn.Reset, Data := [("reason", "Invalid DH Params".toList)] } ::
            (if st.Init then [{ Typ := tvpn.Init, To := st.Name }] else []) }) ∧
      countReset (w.sent ++
        { Typ := tvpn.Reset, Data := [("reason", "Invalid DH Params".toList)] } ::
        (if st.Init then [{ Typ := tvpn.Init, To := st.Name }] else [])) =
        countReset w.sent + 1 ∧
      (afterReset st).Key = [] ∧ (afterReset st).Params = [] ∧
      (afterReset st).State = (if st.Init then tvpn.InitState else NoneState)) ∧
    (mes.Typ = Dhpub →
      ((∃ e, mes.DhParams = .error e) ↔
        b64decode (mes.Data.get "x") = none ∨ b64decode (mes.Data.get "y") = none)) := by
  constructor
  · rintro hs ht ⟨e, he⟩
    refine ⟨?_, ?_, rfl, rfl, rfl⟩
    · rw [Input_DHNeg env st mes w hs]
      simp only [dhnegState, ht, if_true, he, resetWith_eq]
    · simp only [countReset_append]
      cases st.Init <;> simp [countReset, tvpn.Reset, tvpn.Init]
  · intro ht
    simp only [Message.DhParams, ht, if_true]
    cases hx : b64decode (mes.Data.get "x") with
    | none => simp
    | some xb =>
      cases hy : b64decode (mes.Data.get "y") with
      | none => simp
      | some yb => simp

/-- C14 fails on the code: with a tunnel backend whose `Connect` returns an
error, a conversation in ConNeg that receives a Conninfo still moves to
Connected, sends no Reset and keeps its secrets, address and port. -/
theorem C14_connect_error_ignored :
    Input exEnvConnectFails exConNeg exConninfoFrom {} =
      some ({ exConNeg with State := Connected }, { connects := [exConnectCall] }) ∧
    exEnvConnectFails.Connect 0 exConnectCall = true ∧
    countReset ({ connects := [exConnectCall] } : World).sent = 0 := by
  decide

theorem dispatch_unknown_other (env : Env) (cleanup : ConState → World → World) (t : TVPN)
    (msg : Message) (w : World) (h1 : msg.Typ ≠ tvpn.Init) (h2 : msg.Typ ≠ Join)
    (h3 : msg.Typ ≠ tvpn.Reset) (hu : t.States.lookup msg.From = none) :
    dispatch env cleanup t msg w = some (t, w) := by
  by_cases hq : msg.Typ = Quit
  · simp only [dispatch, h1, h2, hu, if_false]
    simp only [hq, if_true]
  · simp only [dispatch, h1, h2, h3, hq, hu, if_false]

/-- C15 fails on the code: an inbound Reset from a peer with no conversation
makes the turn of `Run` panic (`Reset` is called through the nil pointer that
the map returns), where a Quit or any other type from that peer is dropped
with the mapping and the outbox untouched. -/
theorem C15_reset_from_unknown_panics :
    exTVPN.States.lookup "mallory" = none ∧
    dispatch exEnv exCleanup exTVPN
      { Typ := tvpn.Reset, From := "mallory", Data := [("reason", "bye".toList)] } {} = none ∧
    dispatch exEnv exCleanup exTVPN { Typ := Quit, From := "mallory" } {} =
      some (exTVPN, {}) ∧
    dispatch exEnv exCleanup exTVPN { Typ := Tunnip, From := "mallory" } {} =
      some (exTVPN, {}) := by
  decide

theorem C13_invalid_dh_params_witness :
    (Input exEnv exDHNeg exDhpubBad {} =
        some (afterReset exDHNeg,
          { ({} : World) with sent := ({} : World).sent ++
            { Typ := tvpn.Reset, Data := [("reason", "Invalid DH Params".toList)] } ::
            (if exDHNeg.Init then [{ Typ := tvpn.Init, To := exDHNeg.Name }] else []) }) ∧
      countReset (({} : World).sent ++
        { Typ := tvpn.Reset, Data := [("reason", "Invalid DH Params".toList)] } ::
        (if exDHNeg.Init then [{ Typ := tvpn.Init, To := exDHNeg.Name }] else [])) =
        countReset ({} : World).sent + 1 ∧
      (afterReset exDHNeg).Key = [] ∧ (afterReset exDHNeg).Params = [] ∧
      (afterReset exDHNeg).State = (if exDHNeg.Init then tvpn.InitState else NoneState)) ∧
    ((∃ e, exDhpubBad.DhParams = .error e) ↔
      b64decode (exDhpubBad.Data.get "x") = none ∨
        b64decode (exDhpubBad.Data.get "y") = none) :=
  ⟨(C13_invalid_dh_params exEnv exDHNeg exDhpubBad {}).1 (by decide) (by decide)
      ⟨(), by rfl⟩,
   (C13_invalid_dh_params exEnv exDHNeg exDhpubBad {}).2 (by decide)⟩

/-! ## The slot invariant -/

theorem startDH_spec (env : Env) (st : ConState) (w : World) :
    ∃ st' w', startDH env st w = some (st', w') ∧ st'.State = DHNeg ∧
      st'.Key = [none, none, none, none] ∧ st'.Params.length = 4 ∧ st'.Name = st.Name := by
  simp only [startDH, List.foldlM, dhpubStep, dh.GenParams,
    List.length_replicate, List.length_set, SendMessage, Option.bind_eq_bind, Option.some_bind,
    Option.pure_def, Option.map_some', Nat.lt_add_one, Nat.zero_lt_succ,
    show (0 : Nat) < 4 by decide, show (1 : Nat) < 4 by decide, show (2 : Nat) < 4 by decide,
    show (3 : Nat) < 4 by decide, if_true]
  exact ⟨_, _, rfl, rfl, rfl, by simp, rfl⟩

theorem slotsOk_of_low (st : ConState)
    (h : st.State = NoneState ∨ st.State = tvpn.InitState ∨ st.State = DeleteMe) :
    slotsOk st := by
  have e1 : ¬ NoneState = DHNeg := by decide
  have e2 : ¬ NoneState = TunNeg := by decide
  have e3 : ¬ NoneState = ConNeg := by decide
  have e4 : ¬ NoneState = Connected := by decide
  have f1 : ¬ tvpn.InitState = DHNeg := by decide
  have f2 : ¬ tvpn.InitState = TunNeg := by decide
  have f3 : ¬ tvpn.InitState = ConNeg := by decide
  have f4 : ¬ tvpn.InitState = Connected := by decide
  have g1 : ¬ DeleteMe = DHNeg := by decide
  have g2 : ¬ DeleteMe = TunNeg := by decide
  have g3 : ¬ DeleteMe = ConNeg := by decide
  have g4 : ¬ DeleteMe = Connected := by decide
  rcases h with h | h | h <;> constructor <;> rw [h] <;> intro hh
  · exact absurd hh e1
  · rcases hh with hh | hh | hh
    · exact absurd hh e2
    · exact absurd hh e3
    · exact absurd hh e4
  · exact absurd hh f1
  · rcases hh with hh | hh | hh
    · exact absurd hh f2
    · exact absurd hh f3
    · exact absurd hh f4
  · exact absurd hh g1
  · rcases hh with hh | hh | hh
    · exact absurd hh g2
    · exact absurd hh g3
    · exact absurd hh g4

theorem slotsOk_afterReset (st : ConState) : slotsOk (afterReset st) := by
  apply slotsOk_of_low
  cases h : st.Init
  · left; simp [afterReset, h]
  · right; left; simp [afterReset, h]

theorem slotsOk_resetWith (reason : String) (st : ConState) (w : World) :
    slotsOk (resetWith reason st w).1 := by
  rw [resetWith_eq]; exact slotsOk_afterReset st

theorem slotsOk_startDH (env : Env) (st : ConState) (w : World) (st' : ConState)
    (w' : World) (h : startDH env st w = some (st', w')) : slotsOk st' := by
  obtain ⟨s, v, hs, hst, hk, hp, -⟩ := startDH_spec env st w
  rw [hs] at h
  injection h with h
  injection h with h1 h2
  subst h1
  have e2 : ¬ DHNeg = TunNeg := by decide
  have e3 : ¬ DHNeg = ConNeg := by decide
  have e4 : ¬ DHNeg = Connected := by decide
  constructor
  · intro _; rw [hk]; exact ⟨rfl, hp⟩
  · rw [hst]
    rintro (hh | hh | hh)
    · exact absurd hh e2
    · exact absurd hh e3
    · exact absurd hh e4

/-- `Input` keeps the slot invariant. -/
theorem slotsOk_Input (env : Env) (st : ConState) (mes : Message) (w : World)
    (st' : ConState) (w' : World) (hinv : slotsOk st)
    (hstep : Input env st mes w = some (st', w')) : slotsOk st' := by
  have fromReset : ∀ reason : String, some (resetWith reason st w) = some (st', w') →
      slotsOk st' := by
    intro reason h
    injection h with h
    have := slotsOk_resetWith reason st w
    rw [h] at this
    exact this
  by_cases s0 : st.State = NoneState
  · rw [Input_NoneState env st mes w s0] at hstep
    simp only [noneState] at hstep
    split at hstep
    · split at hstep
      · exact slotsOk_startDH env _ _ st' w' hstep
      · injection hstep with h
        injection h with h1 h2
        subst h1
        exact slotsOk_of_low _ (Or.inr (Or.inr rfl))
    · exact fromReset _ hstep
  by_cases s1 : st.State = tvpn.InitState
  · rw [Input_InitState env st mes w s1] at hstep
    simp only [initState] at hstep
    split at hstep
    · exact slotsOk_startDH env _ _ st' w' hstep
    · exact fromReset _ hstep
  by_cases s2 : st.State = DHNeg
  · rw [Input_DHNeg env st mes w s2] at hstep
    simp only [dhnegState] at hstep
    split at hstep
    · split at hstep
      · exact fromReset _ hstep
      · split at hstep
        · split at hstep
          · cases hstep
          · have hlen := hinv.1 s2
            split at hstep
            · injection hstep with h
              injection h with h1 h2
              subst h1
              have e2 : ¬ DHNeg = TunNeg := by decide
              have e3 : ¬ DHNeg = ConNeg := by decide
              have e4 : ¬ DHNeg = Connected := by decide
              constructor
              · intro _; simp only [List.length_set]; exact hlen
              · simp only [s2]
                rintro (hh | hh | hh)
                · exact absurd hh e2
                · exact absurd hh e3
                · exact absurd hh e4
            · rename_i hany
              injection hstep with h
              injection h with h1 h2
              subst h1
              have e1 : ¬ TunNeg = DHNeg := by decide
              constructor
              · intro hh; exact absurd hh e1
              · intro _
                refine ⟨by simp only [List.length_set]; exact hlen.1, ?_⟩
                simp only [allSecrets, List.all_eq_true]
                intro v hv
                cases v with
                | some _ => rfl
                | none =>
                  exact absurd (List.any_eq_true.2 ⟨none, hv, rfl⟩) hany
        · cases hstep
    · exact fromReset _ hstep
  by_cases s3 : st.State = TunNeg
  · rw [Input_TunNeg env st mes w s3] at hstep
    have hk := hinv.2 (Or.inl s3)
    simp only [tunnegState] at hstep
    split at hstep
    · split at hstep
      · injection hstep with h
        have h1 := congrArg Prod.fst h
        simp only at h1
        rw [← h1]
        exact slotsOk_resetWith _ _ _
      · injection hstep with h
        injection h with h1 h2
        subst h1
        have e1 : ¬ ConNeg = DHNeg := by decide
        constructor
        · intro hh; exact absurd hh e1
        · intro _
          split <;> exact hk
    · exact fromReset _ hstep
  by_cases s4 : st.State = ConNeg
  · rw [Input_ConNeg env st mes w s4] at hstep
    have hk := hinv.2 (Or.inr (Or.inl s4))
    simp only [connegState] at hstep
    split at hstep
    · injection hstep with h
      injection h with h1 h2
      subst h1
      have e1 : ¬ Connected = DHNeg := by decide
      exact ⟨fun hh => absurd hh e1, fun _ => hk⟩
    · exact fromReset _ hstep
  · simp only [Input, s0, s1, s2, s3, s4, if_false, connectedState, ite_self] at hstep
    injection hstep with h
    injection h with h1 h2
    subst h1
    exact hinv

theorem slotsOk_Reachable (env : Env) (st : ConState) (w : World)
    (h : Reachable env st w) : slotsOk st := by
  induction h with
  | fresh name friend init w =>
    apply slotsOk_of_low
    cases init
    · left; rfl
    · right; left; rfl
  | input st w mes st' w' _ hstep ih => exact slotsOk_Input env st mes w st' w' ih hstep
  | reset st w reason _ _ =>
    rw [Reset_eq]; exact slotsOk_afterReset st

theorem Reachable_runInputs (env : Env) (msgs : List Message) (st : ConState) (w : World)
    (st' : ConState) (w' : World) (h : Reachable env st w)
    (hrun : runInputs env st w msgs = some (st', w')) : Reachable env st' w' := by
  induction msgs generalizing st w with
  | nil =>
    simp only [runInputs] at hrun
    injection hrun with hrun
    injection hrun with h1 h2
    subst h1 h2
    exact h
  | cons m ms ih =>
    simp only [runInputs] at hrun
    cases hi : Input env st m w with
    | none => rw [hi] at hrun; cases hrun
    | some r =>
      rw [hi] at hrun
      exact ih r.1 r.2 (Reachable.input st w m r.1 r.2 h hi) hrun

/-- C16: in every state reachable from a freshly created conversation (a
responder in None or an initiator in Init) by any sequence of `Input` steps and
local resets, a conversation in TunNeg, ConNeg or Connected has exactly 4 key
slots and each of them holds a derived secret. -/
theorem C16_slots_complete (env : Env) (st : ConState) (w : World)
    (h : Reachable env st w)
    (hs : st.State = TunNeg ∨ st.State = ConNeg ∨ st.State = Connected) :
    st.Key.length = 4 ∧ (∀ v ∈ st.Key, v ≠ none) := by
  have hk := (slotsOk_Reachable env st w h).2 hs
  refine ⟨hk.1, ?_⟩
  intro v hv hn
  have := List.all_eq_true.1 hk.2 v hv
  rw [hn] at this
  cases this

theorem C16_slots_complete_witness :
    Reachable exEnv exReached exReachedWorld ∧
    (exReached.State = TunNeg ∨ exReached.State = ConNeg ∨ exReached.State = Connected) ∧
    exReached.Key.length = 4 ∧ (∀ v ∈ exReached.Key, v ≠ none) :=
  have hr : Reachable exEnv exReached exReachedWorld :=
    Reachable_runInputs exEnv exHandshake _ _ exReached exReachedWorld
      (Reachable.fresh "bob" true false {}) (by rfl)
  ⟨hr, Or.inl rfl, C16_slots_complete exEnv exReached exReachedWorld hr (Or.inl rfl)⟩

/-! ## The orchestrator's map, slot indices and addressing -/

theorem lookup_mapSet {α : Type} (m : List (String × α)) (k : String) (v : α) :
    (mapSet m k v).lookup k = some v := by
  simp [mapSet, List.lookup]

/-- After a turn of `Run` on an Init that returns, the sender has an entry in
the map, whatever the friend list says. -/
theorem dispatch_Init_keeps_entry (env : Env) (cleanup : ConState → World → World)
    (t t' : TVPN) (msg : Message) (w w' : World) (ht : msg.Typ = tvpn.Init)
    (h : dispatch env cleanup t msg w = some (t', w')) :
    ∃ st, t'.States.lookup msg.From = some st := by
  simp only [dispatch, ht, if_true, Option.map_eq_some', Prod.mk.injEq] at h
  obtain ⟨r, -, h1, -⟩ := h
  rw [← h1]
  exact ⟨r.1, lookup_mapSet _ _ _⟩

/-- C17 fails on the code: after the turn of `Run` on an Init from `mallory`,
who is not in the friend list, the map still holds a conversation for
`mallory`, in state DeleteMe; nothing removes it. -/
theorem C17_denied_conversation_stays :
    exTVPN.IsFriend "mallory" = false ∧
    dispatch exEnv exCleanup exTVPN { Typ := tvpn.Init, From := "mallory" } {} =
      some ({ exTVPN with States := [("mallory", exDenied)] }, { sent := [denyMsg] }) ∧
    ([("mallory", exDenied)] : List (String × ConState)).lookup "mallory" = some exDenied ∧
    exDenied.State = DeleteMe := by
  decide

theorem digit03_cases (d : Char) (h : isDigit03 d = true) :
    d = '0' ∨ d = '1' ∨ d = '2' ∨ d = '3' := by
  simp only [isDigit03, decide_eq_true_eq] at h
  obtain ⟨h1, h2⟩ := h
  rw [Char.le_def] at h1 h2
  have h1' : (48 : Nat) ≤ d.val.toNat := h1
  have h2' : d.val.toNat ≤ 51 := h2
  have key : ∀ n : Nat, d.val.toNat = n → ∀ c : Char, c.val.toNat = n → d = c := by
    intro n hn c hc
    apply Char.ext
    apply UInt32.ext
    exact hn.trans hc.symm
  have : d.val.toNat = 48 ∨ d.val.toNat = 49 ∨ d.val.toNat = 50 ∨ d.val.toNat = 51 := by omega
  rcases this with h | h | h | h
  · exact Or.inl (key 48 h '0' rfl)
  · exact Or.inr (Or.inl (key 49 h '1' rfl))
  · exact Or.inr (Or.inr (Or.inl (key 50 h '2' rfl)))
  · exact Or.inr (Or.inr (Or.inr (key 51 h '3' rfl)))

theorem Atoi_digit03 (d : Char) (h : isDigit03 d = true) :
    0 ≤ (Atoi [d]).1 ∧ (Atoi [d]).1 < 4 := by
  rcases digit03_cases d h with rfl | rfl | rfl | rfl <;> decide

theorem parsed_dhpub_index (line : List Char) (m : Message)
    (hp : ParseMessage line = .ok m) (ht : m.Typ = Dhpub) :
    ∃ d, isDigit03 d = true ∧ m.Data.get "i" = [d] := by
  have hv := ((ParseMessage_ok_iff line m).1 hp).2.2.1
  rw [ht] at hv
  rcases hv with ⟨h, -⟩ | ⟨h, -⟩ | ⟨h, -⟩ | ⟨h, -⟩ | ⟨-, i, x, y, hi, -, -, hd⟩ | ⟨h, -⟩ |
    ⟨h, -⟩
  · exact absurd h (by decide)
  · exact absurd h (by decide)
  · exact absurd h (by decide)
  · exact absurd h (by decide)
  · exact ⟨i, hi, by rw [hd]; rfl⟩
  · exact absurd h (by decide)
  · exact absurd h (by decide)

theorem DhParams_index (m : Message) (x y : Option Nat) (i : Int) (ht : m.Typ = Dhpub)
    (h : m.DhParams = .ok (x, y, i)) : i = (Atoi (m.Data.get "i")).1 := by
  simp only [Message.DhParams, ht, if_true] at h
  split at h
  · cases h
  · split at h
    · cases h
    · injection h with h
      injection h with _ h
      injection h with _ h
      exact h.symm

theorem dhneg_no_panic (env : Env) (st : ConState) (m : Message) (w : World)
    (hs : st.State = DHNeg) (hK : st.Key.length = 4) (hP : st.Params.length = 4)
    (hi : 0 ≤ (Atoi (m.Data.get "i")).1 ∧ (Atoi (m.Data.get "i")).1 < 4) :
    (Input env st m w).isSome = true := by
  rw [Input_DHNeg env st m w hs]
  by_cases ht : m.Typ = Dhpub
  · simp only [dhnegState, ht, if_true]
    cases hd : m.DhParams with
    | error e => rfl
    | ok r =>
      obtain ⟨x, y, i⟩ := r
      have hidx := DhParams_index m x y i ht hd
      rw [← hidx] at hi
      have hn : i.toNat < 4 := by omega
      have hcond : 0 ≤ i ∧ i.toNat < st.Key.length := ⟨hi.1, by omega⟩
      have hpe : st.Params[i.toNat]? = some st.Params[i.toNat] :=
        List.getElem?_eq_getElem (by omega)
      simp only [hcond, and_self, if_true, hpe]
      by_cases hany : (st.Key.set i.toNat
          (some (env.GenMutSecret st.Params[i.toNat] ⟨x, y⟩))).any (fun v => v.isNone) = true
      · rw [if_pos hany]; rfl
      · rw [if_neg hany]; rfl
  · simp only [dhnegState, ht, if_false]
    rfl

/-- C19: for every Dhpub message that `ParseMessage` returns, the index that
`DhParams` reads is in 0..3, so in DHNeg with the 4 parameter slots and the 4
secret slots allocated, as they are in every DHNeg conversation reached from a
fresh one, `Input` of that message does not panic on `st.Params[i]` or
`st.Key[i]`; a Dhpub message built by hand with index 7 does make it panic. -/
theorem C19_index_in_bounds (line : List Char) (m : Message)
    (hp : ParseMessage line = .ok m) (ht : m.Typ = Dhpub) :
    (0 ≤ (Atoi (m.Data.get "i")).1 ∧ (Atoi (m.Data.get "i")).1 < 4) ∧
    (∀ x y i, m.DhParams = .ok (x, y, i) → 0 ≤ i ∧ i < 4) ∧
    (∀ env st w, st.State = DHNeg → st.Key.length = 4 → st.Params.length = 4 →
      (Input env st m w).isSome = true) ∧
    (∀ env st w, Reachable env st w → st.State = DHNeg →
      (Input env st m w).isSome = true) ∧
    Input exEnv exDHNeg exDhpubSeven {} = none := by
  obtain ⟨d, hd, hget⟩ := parsed_dhpub_index line m hp ht
  have hi : 0 ≤ (Atoi (m.Data.get "i")).1 ∧ (Atoi (m.Data.get "i")).1 < 4 := by
    rw [hget]; exact Atoi_digit03 d hd
  refine ⟨hi, ?_, ?_, ?_, by decide⟩
  · intro x y i h
    rw [DhParams_index m x y i ht h]
    exact hi
  · intro env st w hs hK hP
    exact dhneg_no_panic env st m w hs hK hP hi
  · intro env st w hr hs
    have hinv := (slotsOk_Reachable env st w hr).1 hs
    exact dhneg_no_panic env st m w hs hinv.1 hinv.2 hi

theorem C19_index_in_bounds_witness :
    (0 ≤ (Atoi ((exDhpubAt "2").Data.get "i")).1 ∧
      (Atoi ((exDhpubAt "2").Data.get "i")).1 < 4) ∧
    (Input exEnv exDHNeg { exDhpubAt "2" with From := "" } {}).isSome = true :=
  have hp : ParseMessage "DHPUB 2 QUFB QkI=".toList = .ok { exDhpubAt "2" with From := "" } := by
    rfl
  ⟨(C19_index_in_bounds _ _ hp (by decide)).1,
   (C19_index_in_bounds _ _ hp (by decide)).2.2.1 exEnv exDHNeg {} (by decide) (by decide)
     (by decide)⟩

/-- C20 fails on the code: the Deny that a conversation with peer `bob` sends
has an empty `To`, and so have the four Dhpub messages that follow its Accept
and the Reset of a `default` branch; only Accept, Tunnip, Conninfo and Init
carry the peer's name. -/
theorem C20_To_left_empty :
    (exState false).Name = "bob" ∧
    (Input exEnv (exState false) { Typ := tvpn.Init, From := "bob" } {}).map
        (fun r => r.2.sent.map (fun m => (m.Typ, m.To))) = some [(Deny, "")] ∧
    (Input exEnv (exState true) { Typ := tvpn.Init, From := "bob" } {}).map
        (fun r => r.2.sent.map (fun m => (m.Typ, m.To))) =
      some [(Accept, "bob"), (Dhpub, ""), (Dhpub, ""), (Dhpub, ""), (Dhpub, "")] ∧
    (Input exEnv (exState true) { Typ := Accept, From := "bob" } {}).map
        (fun r => r.2.sent.map (fun m => (m.Typ, m.To))) = some [(tvpn.Reset, "")] := by
  decide

/-! ## Base64 and big-integer bytes: the Dhpub fields -/

theorem b64chr_facts (v : Nat) :
    isB64 (b64chr v) = true ∧ b64chr v ≠ '=' ∧ b64val (b64chr v) = some (v % 64) := by
  have h : ∀ k, k < 64 → isB64 (b64alphabet.getD k 'A') = true ∧
      b64alphabet.getD k 'A' ≠ '=' ∧ b64val (b64alphabet.getD k 'A') = some k := by
    decide
  exact h (v % 64) (Nat.mod_lt _ (by decide))

theorem isB64_not_newline (c : Char) (h : isB64 c = true) :
    (c != '\n' && c != '\r') = true := by
  by_cases h1 : c = '\n'
  · subst h1; revert h; decide
  by_cases h2 : c = '\r'
  · subst h2; revert h; decide
  simp [h1, h2]

theorem b64encode_all (bs : List Nat) : (b64encode bs).all isB64 = true := by
  induction bs using b64encode.induct with
  | case1 => rfl
  | case2 a =>
    simp only [b64encode, List.all_cons, List.all_nil, Bool.and_true, (b64chr_facts _).1,
      Bool.true_and]
    decide
  | case3 a b =>
    simp only [b64encode, List.all_cons, List.all_nil, Bool.and_true, (b64chr_facts _).1,
      Bool.true_and]
    decide
  | case4 a b c rest ih =>
    simp only [b64encode, List.all_cons, (b64chr_facts _).1, Bool.true_and]
    exact ih

theorem b64encode_ne_nil (bs : List Nat) (h : bs ≠ []) : b64encode bs ≠ [] := by
  match bs, h with
  | [a], _ => simp [b64encode]
  | [a, b], _ => simp [b64encode]
  | a :: b :: c :: rest, _ => simp [b64encode]

theorem b64quanta_encode (bs : List Nat) (h : ∀ b ∈ bs, b < 256) :
    b64quanta (b64encode bs) = some bs := by
  induction bs using b64encode.induct with
  | case1 => rfl
  | case2 a =>
    have ha : a < 256 := h a (by simp)
    have e1 : a / 4 % 64 = a / 4 := Nat.mod_eq_of_lt (by omega)
    have e2 : a % 4 * 16 % 64 = a % 4 * 16 := Nat.mod_eq_of_lt (by omega)
    simp only [b64encode, b64quanta, (b64chr_facts _).2.2, e1, e2, if_true, and_self]
    congr 2
    omega
  | case3 a b =>
    have ha : a < 256 := h a (by simp)
    have hb : b < 256 := h b (by simp)
    have e1 : a / 4 % 64 = a / 4 := Nat.mod_eq_of_lt (by omega)
    have e2 : (a % 4 * 16 + b / 16) % 64 = a % 4 * 16 + b / 16 := Nat.mod_eq_of_lt (by omega)
    have e3 : b % 16 * 4 % 64 = b % 16 * 4 := Nat.mod_eq_of_lt (by omega)
    simp only [b64encode, b64quanta, (b64chr_facts _).2.2, (b64chr_facts _).2.1, e1, e2, e3,
      if_true, if_false]
    congr 2
    · omega
    · congr 1; omega
  | case4 a b c rest ih =>
    have ha : a < 256 := h a (by simp)
    have hb : b < 256 := h b (by simp)
    have hc : c < 256 := h c (by simp)
    have hrest : ∀ x ∈ rest, x < 256 := fun x hx => h x (by simp [hx])
    have e1 : a / 4 % 64 = a / 4 := Nat.mod_eq_of_lt (by omega)
    have e2 : (a % 4 * 16 + b / 16) % 64 = a % 4 * 16 + b / 16 := Nat.mod_eq_of_lt (by omega)
    have e3 : (b % 16 * 4 + c / 64) % 64 = b % 16 * 4 + c / 64 := Nat.mod_eq_of_lt (by omega)
    simp only [b64encode, b64quanta, (b64chr_facts _).2.2, (b64chr_facts _).2.1, e1, e2, e3,
      if_false, ih hrest, Option.map_some']
    congr 2
    · omega
    · congr 1
      · omega
      · congr 1; omega

theorem b64decode_encode (bs : List Nat) (h : ∀ b ∈ bs, b < 256) :
    b64decode (b64encode bs) = some bs := by
  have hf : (b64encode bs).filter (fun c => c != '\n' && c != '\r') = b64encode bs := by
    rw [List.filter_eq_self]
    intro c hc
    exact isB64_not_newline c (List.all_eq_true.1 (b64encode_all bs) c hc)
  rw [b64decode, hf]
  exact b64quanta_encode bs h

theorem bytesAux_value (fuel n : Nat) (acc : List Nat) (h : n ≤ fuel) :
    (bytesAux fuel n acc).foldl (fun k b => k * 256 + b % 256) 0 =
      acc.foldl (fun k b => k * 256 + b % 256) n := by
  induction fuel generalizing n acc with
  | zero =>
    have : n = 0 := by omega
    subst this
    rfl
  | succ fuel ih =>
    by_cases hn : n = 0
    · subst hn; simp [bytesAux]
    · simp only [bytesAux, hn, if_false]
      rw [ih (n / 256) (n % 256 :: acc) (by omega)]
      simp only [List.foldl_cons]
      congr 1
      omega

theorem SetBytes_Bytes (n : Nat) : SetBytes (Bytes n) = n := by
  simp only [SetBytes, Bytes]
  rw [bytesAux_value n n [] (Nat.le_refl n)]
  rfl

theorem bytesAux_lt (fuel n : Nat) (acc : List Nat) (h : ∀ b ∈ acc, b < 256) :
    ∀ b ∈ bytesAux fuel n acc, b < 256 := by
  induction fuel generalizing n acc with
  | zero => simpa [bytesAux] using h
  | succ fuel ih =>
    by_cases hn : n = 0
    · simpa [bytesAux, hn] using h
    · simp only [bytesAux, hn, if_false]
      apply ih
      intro b hb
      simp only [List.mem_cons] at hb
      rcases hb with rfl | hb
      · exact Nat.mod_lt _ (by decide)
      · exact h b hb

theorem Bytes_lt (n : Nat) : ∀ b ∈ Bytes n, b < 256 :=
  bytesAux_lt n n [] (by simp)

theorem bytesAux_ne_nil (fuel n : Nat) (acc : List Nat) (h : acc ≠ []) :
    bytesAux fuel n acc ≠ [] := by
  induction fuel generalizing n acc with
  | zero => simpa [bytesAux] using h
  | succ fuel ih =>
    by_cases hn : n = 0
    · simpa [bytesAux, hn] using h
    · simp only [bytesAux, hn, if_false]
      exact ih _ _ (by simp)

theorem Bytes_ne_nil (n : Nat) (h : 0 < n) : Bytes n ≠ [] := by
  obtain ⟨k, rfl⟩ : ∃ k, n = k + 1 := ⟨n - 1, by omega⟩
  simp only [Bytes, bytesAux, Nat.succ_ne_zero, if_false]
  exact bytesAux_ne_nil _ _ _ (by simp)

theorem fmtInt_slot (i : Nat) (hi : i < 4) :
    ∃ d, fmtInt i = [d] ∧ isDigit03 d = true ∧ (Atoi [d]).1 = (i : Int) := by
  have h : ∀ k : Nat, k < 4 → ∃ d, fmtInt (k : Int) = [d] ∧ isDigit03 d = true ∧
      (Atoi [d]).1 = (k : Int) := by
    intro k hk
    match k, hk with
    | 0, _ => exact ⟨'0', by decide, by decide, by decide⟩
    | 1, _ => exact ⟨'1', by decide, by decide, by decide⟩
    | 2, _ => exact ⟨'2', by decide, by decide, by decide⟩
    | 3, _ => exact ⟨'3', by decide, by decide, by decide⟩
  exact h i hi

/-- The Dhpub message the handshake builds for slot `i` in 0..3 from positive
components `X`, `Y` prints to a line that `ParseMessage` accepts as Dhpub, and
`DhParams` of the parsed message gives back `(X, Y, i)`. -/
theorem dhpub_roundtrip (i X Y : Nat) (hi : i < 4) (hX : 0 < X) (hY : 0 < Y) :
    ∃ m, ParseMessage (dhpubMsg i X Y).String = .ok m ∧ m.Typ = Dhpub ∧
      m.DhParams = .ok (some X, some Y, (i : Int)) := by
  obtain ⟨d, hd, hd03, hatoi⟩ := fmtInt_slot i hi
  have hx : b64encode (Bytes X) ≠ [] ∧ (b64encode (Bytes X)).all isB64 = true :=
    ⟨b64encode_ne_nil _ (Bytes_ne_nil X hX), b64encode_all _⟩
  have hy : b64encode (Bytes Y) ≠ [] ∧ (b64encode (Bytes Y)).all isB64 = true :=
    ⟨b64encode_ne_nil _ (Bytes_ne_nil Y hY), b64encode_all _⟩
  have hs : (dhpubMsg i X Y).String =
      "DHPUB ".toList ++ d :: ' ' :: (b64encode (Bytes X) ++ ' ' :: b64encode (Bytes Y)) := by
    simp [dhpubMsg, Message.String, Dhpub, Init, Deny, Accept, Data.get, List.lookup, hd]
  refine ⟨_, by rw [hs]; exact parse_dhpub d _ _ hd03 hx hy, rfl, ?_⟩
  have gx : Data.get [("i", [d]), ("y", b64encode (Bytes Y)), ("x", b64encode (Bytes X))] "x" =
      b64encode (Bytes X) := by
    simp [Data.get, List.lookup]
  have gy : Data.get [("i", [d]), ("y", b64encode (Bytes Y)), ("x", b64encode (Bytes X))] "y" =
      b64encode (Bytes Y) := by
    simp [Data.get, List.lookup]
  have gi : Data.get [("i", [d]), ("y", b64encode (Bytes Y)), ("x", b64encode (Bytes X))] "i" =
      [d] := by
    simp [Data.get, List.lookup]
  simp only [Message.DhParams, if_true, gx, gy, gi, b64decode_encode _ (Bytes_lt _),
    SetBytes_Bytes, hatoi]

/-- C18 fails on the code: for slot 0 and the components `X = 0`, `Y = 1` the
handshake builds a Dhpub message whose `x` text is empty (`Bytes` of 0 is the
empty slice), it prints as `DHPUB 0  AQ==`, and `ParseMessage` rejects that
line, so `DhParams` never gets to return `(0, 1, 0)`. -/
theorem C18_zero_component_rejected :
    Bytes 0 = [] ∧ (dhpubMsg 0 0 1).Data.get "x" = [] ∧
    (dhpubMsg 0 0 1).String = "DHPUB 0  AQ==".toList ∧
    Rejected (dhpubMsg 0 0 1).String := by
  refine ⟨rfl, rfl, rfl, ?_⟩
  rfl

end tvpn
